import Mathlib

/-!
Verification of axema-booking: schedule resolution, response cache and login.

A shallow embedding of `src/main.go`.  Go `int` values are `Int` (the program
only compares, divides and prints them, so no operation can wrap), Go
`string`/`[]byte` values are `String`, Go slices are `List`s, and a run-time
panic of the Go runtime is an explicit `Panic` result.
-/

namespace Axema

deriving instance DecidableEq for Except

/-! ## Data model (`src/main.go`, lines 26-115) -/

/-- Go struct `nonceResponse`. -/
structure nonceResponse where
  Nonce1 : String
  Nonce2 : String
  deriving DecidableEq, Repr

/-- Go struct `loginRequest`. -/
structure loginRequest where
  Nonce1 : String
  Nonce2 : String
  Pass : String
  User : String
  deriving DecidableEq, Repr

/-- Go struct `schedulePeriod`. -/
structure schedulePeriod where
  ID : Int
  StartTime : Int
  StopTime : Int
  deriving DecidableEq, Repr

/-- Go struct `weekDay`. -/
structure weekDay where
  Date : String
  deriving DecidableEq, Repr

/-- Go struct `week`. -/
structure week where
  WeekNumber : Int
  WeekDays : List weekDay
  deriving DecidableEq, Repr

/-- Go struct `laundryUnit`. -/
structure laundryUnit where
  ID : Int
  Name : String
  WeekList : List week
  SchedulePeriodList : List (List schedulePeriod)
  deriving DecidableEq, Repr

/-- Go struct `bookingViewRequest`. -/
structure bookingViewRequest where
  ReservationObjectID : Int
  deriving DecidableEq, Repr

/-- Go struct `bookingViewResponse`. -/
structure bookingViewResponse where
  TimeStamp : String
  LaundryUnits : List laundryUnit
  deriving DecidableEq, Repr

/-- Go struct `booking`. -/
structure booking where
  ID : Int
  ObjectID : Int
  WeekNumber : Int
  SchedulePeriodID : Int
  deriving DecidableEq, Repr

/-- Go struct `ownedReservationsResponse`. -/
structure ownedReservationsResponse where
  Bookings : List booking
  deriving DecidableEq, Repr

/-- Go struct `object`. -/
structure object where
  ID : Int
  Name : String
  deriving DecidableEq, Repr

/-- The zero value `schedulePeriod{}`. -/
def schedulePeriod.zero : schedulePeriod := ⟨0, 0, 0⟩

/-- The zero value `laundryUnit{}`. -/
def laundryUnit.zero : laundryUnit := ⟨0, "", [], []⟩

/-! ## Go run-time behaviour used by the program -/

/-- A run-time panic raised by the Go runtime. -/
inductive Panic where
  | indexOutOfRange (index : Int) (length : Nat)
  deriving DecidableEq, Repr

/-- Slice indexing `xs[i]` with Go's bounds check: a negative index or an index
at or past `len(xs)` panics. -/
def sliceIndex {α : Type} (xs : List α) (i : Int) : Except Panic α :=
  if 0 ≤ i then
    match xs[i.toNat]? with
    | some x => .ok x
    | none => .error (.indexOutOfRange i xs.length)
  else
    .error (.indexOutOfRange i xs.length)

/-! ## Schedule lookups (`src/main.go`, lines 60-99) -/

/-- The `for _, w := range lu.WeekList` loop of `laundryUnit.GetDate`: a week
whose number matches and whose day list is longer than `day` ends the scan with
`w.WeekDays[day].Date`; every other week is passed over. -/
def laundryUnit.GetDate.scan : List week → Int → Int → Except Panic String
  | [], _, _ => .ok ""
  | w :: rest, weekNumber, day =>
    if w.WeekNumber = weekNumber then
      if day < (w.WeekDays.length : Int) then
        match sliceIndex w.WeekDays day with
        | .ok wd => .ok wd.Date
        | .error p => .error p
      else
        laundryUnit.GetDate.scan rest weekNumber day
    else
      laundryUnit.GetDate.scan rest weekNumber day

/-- Go method `laundryUnit.GetDate` (lines 60-69). -/
def laundryUnit.GetDate (lu : laundryUnit) (weekNumber day : Int) : Except Panic String :=
  laundryUnit.GetDate.scan lu.WeekList weekNumber day

/-- The inner loop `for _, slot := range item` of
`laundryUnit.GetSchedulePeriodByID`: the first slot of the day with the id. -/
def laundryUnit.GetSchedulePeriodByID.inner : List schedulePeriod → Int → Option schedulePeriod
  | [], _ => none
  | slot :: rest, id =>
    if slot.ID = id then some slot else laundryUnit.GetSchedulePeriodByID.inner rest id

/-- The outer loop `for day, item := range lu.SchedulePeriodList`, `day` being
the index of the head of the remaining list. -/
def laundryUnit.GetSchedulePeriodByID.outer :
    List (List schedulePeriod) → Nat → Int → Int × schedulePeriod
  | [], _, _ => (-1, schedulePeriod.zero)
  | item :: rest, day, id =>
    match laundryUnit.GetSchedulePeriodByID.inner item id with
    | some slot => ((day : Int), slot)
    | none => laundryUnit.GetSchedulePeriodByID.outer rest (day + 1) id

/-- Go method `laundryUnit.GetSchedulePeriodByID` (lines 71-80). -/
def laundryUnit.GetSchedulePeriodByID (lu : laundryUnit) (id : Int) : Int × schedulePeriod :=
  laundryUnit.GetSchedulePeriodByID.outer lu.SchedulePeriodList 0 id

/-- Go method `bookingViewResponse.GetSchedulePeriodByID` (lines 91-99), as a
scan of the remaining laundry units. -/
def bookingViewResponse.GetSchedulePeriodByID.scan :
    List laundryUnit → Int → Int × schedulePeriod × laundryUnit
  | [], _ => (-1, schedulePeriod.zero, laundryUnit.zero)
  | lu :: rest, id =>
    let (day, period) := lu.GetSchedulePeriodByID id
    if day ≥ 0 then (day, period, lu)
    else bookingViewResponse.GetSchedulePeriodByID.scan rest id

/-- Go method `bookingViewResponse.GetSchedulePeriodByID` (lines 91-99). -/
def bookingViewResponse.GetSchedulePeriodByID (r : bookingViewResponse) (id : Int) :
    Int × schedulePeriod × laundryUnit :=
  bookingViewResponse.GetSchedulePeriodByID.scan r.LaundryUnits id

/-! ## Errors -/

/-- A Go `error` value, by the way it was built. -/
inductive GoError where
  /-- The value of `errors.New(msg)`, or of `fmt.Errorf` with its verbs `%s` and `%d`
  already expanded into `msg`. -/
  | text (msg : String)
  /-- The value of `fmt.Errorf("bad date %q", date)`. -/
  | badDate (date : String)
  /-- A `*strconv.NumError` with fields `Func`, `Num` and `Err`. -/
  | numError (func num reason : String)
  /-- An error for which `errors.Is(err, os.ErrNotExist)` holds. -/
  | notExist (path : String)
  /-- The value of `errors.Join` on the listed non-nil errors. -/
  | join (errs : List GoError)
  /-- An error value handed back by a library or by the operating system. -/
  | foreign (msg : String)
  deriving Repr

/-- The check `errors.Is(err, os.ErrNotExist)`. -/
def GoError.isNotExist : GoError → Bool
  | .notExist _ => true
  | _ => false

/-- Go `errors.Join`: nil errors are dropped; the result is nil when none is left. -/
def errorsJoin (errs : List (Option GoError)) : Option GoError :=
  match errs.filterMap id with
  | [] => none
  | es => some (.join es)

/-- How a Go function call ends that does not return normally: with a non-nil
`error`, or with a run-time panic. -/
inductive Failure where
  | error (e : GoError)
  | panic (p : Panic)
  deriving Repr

/-- The verb `%d` of package `fmt` on an `int`. -/
def fmtD (i : Int) : String := toString i

/-! ## `strings` and `strconv` -/

/-- The fields of a character list around every occurrence of `sep`. -/
def splitChars (sep : Char) : List Char → List (List Char)
  | [] => [[]]
  | c :: cs =>
    if c = sep then [] :: splitChars sep cs
    else
      match splitChars sep cs with
      | [] => [[c]]
      | f :: fs => (c :: f) :: fs

/-- Go `strings.Split(s, sep)` for a separator of one character, as in
`strings.Split(date, "-")`. -/
def stringsSplit (s : String) (sep : Char) : List String :=
  (splitChars sep s.data).map String.mk

/-- True when `pat` starts the character list. -/
def hasPrefixChars : List Char → List Char → Bool
  | [], _ => true
  | _ :: _, [] => false
  | p :: ps, c :: cs => p == c && hasPrefixChars ps cs

/-- True when `pat` occurs in the character list at some position. -/
def containsChars (pat : List Char) : List Char → Bool
  | [] => hasPrefixChars pat []
  | c :: cs => hasPrefixChars pat (c :: cs) || containsChars pat cs

/-- Go `strings.Contains(s, substr)`. -/
def stringsContains (s substr : String) : Bool :=
  containsChars substr.data s.data

/-- The digit loop of `strconv.ParseUint(s, 10, 64)`: a byte that is no decimal
digit is a syntax error, a value past `2^64 - 1` is a range error, whichever
comes first from the left. -/
def parseUintLoop : List Char → Nat → Except String Nat
  | [], n => .ok n
  | ch :: rest, n =>
    if ch.isDigit then
      if n * 10 + (ch.toNat - 48) < 2 ^ 64 then parseUintLoop rest (n * 10 + (ch.toNat - 48))
      else .error "value out of range"
    else .error "invalid syntax"

/-- Go `strconv.Atoi(s)` on a platform whose `int` has 64 bits: an optional sign
and at least one decimal digit, the value within `[-2^63, 2^63 - 1]`. -/
def strconvAtoi (s : String) : Except GoError Int :=
  let digits : Bool × List Char :=
    match s.data with
    | '-' :: rest => (true, rest)
    | '+' :: rest => (false, rest)
    | all => (false, all)
  match digits with
  | (_, []) => .error (.numError "Atoi" s "invalid syntax")
  | (neg, d :: ds) =>
    match parseUintLoop (d :: ds) 0 with
    | .error reason => .error (.numError "Atoi" s reason)
    | .ok un =>
      if neg then
        if un ≤ 2 ^ 63 then .ok (-(un : Int)) else .error (.numError "Atoi" s "value out of range")
      else
        if un < 2 ^ 63 then .ok (un : Int) else .error (.numError "Atoi" s "value out of range")

/-- The error of a `strconv.Atoi` result, nil on success. -/
def errOf {α : Type} : Except GoError α → Option GoError
  | .ok _ => none
  | .error e => some e

/-- The value of a `strconv.Atoi` result; the caller discards it when the error
is non-nil. -/
def valOf : Except GoError Int → Int
  | .ok v => v
  | .error _ => 0

/-! ## `time` -/

/-- A `*time.Location`, by the name it was loaded under. -/
structure Location where
  name : String
  deriving DecidableEq, Repr

/-- A `time.Time` built by `time.Date`, recorded as the civil fields and the
location handed to `time.Date`. -/
structure Time where
  year : Int
  month : Int
  day : Int
  hour : Int
  min : Int
  sec : Int
  nsec : Int
  loc : Location
  deriving DecidableEq, Repr

/-- Go function `toTime` (lines 337-354).  `loadLocation` is `time.LoadLocation`
over the host's time-zone database.  Go's `/` on `int` truncates toward zero,
which is `Int.tdiv`. -/
def toTime (loadLocation : String → Except GoError Location) (date : String) (mins : Int) :
    Except GoError Time :=
  match stringsSplit date '-' with
  | [f0, f1, f2] =>
    let y := strconvAtoi f0
    let m := strconvAtoi f1
    let d := strconvAtoi f2
    match errorsJoin [errOf y, errOf m, errOf d] with
    | some err => .error err
    | none =>
      match loadLocation "Europe/Stockholm" with
      | .error err => .error err
      | .ok loc =>
        .ok ⟨valOf y, valOf m, valOf d, mins.tdiv 60, mins - 60 * (mins.tdiv 60), 0, 0, loc⟩
  | _ => .error (.badDate date)

/-! ## `crypto/md5` and `encoding/hex` -/

/-- The bytes of a Go string holding the given text: its UTF-8 encoding. -/
def stringBytes (s : String) : List Nat :=
  s.data.flatMap (fun c => (String.utf8EncodeChar c).map UInt8.toNat)

/-- The per-round left-rotation amounts of MD5 (RFC 1321). -/
def md5Shifts : List Nat :=
  [
    7, 12, 17, 22, 7, 12, 17, 22, 7, 12, 17, 22, 7, 12, 17, 22,
    5, 9, 14, 20, 5, 9, 14, 20, 5, 9, 14, 20, 5, 9, 14, 20,
    4, 11, 16, 23, 4, 11, 16, 23, 4, 11, 16, 23, 4, 11, 16, 23,
    6, 10, 15, 21, 6, 10, 15, 21, 6, 10, 15, 21, 6, 10, 15, 21]

/-- The additive constants of MD5 (RFC 1321), `floor(2^32 * |sin(i + 1)|)`. -/
def md5Consts : List Nat :=
  [
    0xd76aa478, 0xe8c7b756, 0x242070db, 0xc1bdceee,
    0xf57c0faf, 0x4787c62a, 0xa8304613, 0xfd469501,
    0x698098d8, 0x8b44f7af, 0xffff5bb1, 0x895cd7be,
    0x6b901122, 0xfd987193, 0xa679438e, 0x49b40821,
    0xf61e2562, 0xc040b340, 0x265e5a51, 0xe9b6c7aa,
    0xd62f105d, 0x02441453, 0xd8a1e681, 0xe7d3fbc8,
    0x21e1cde6, 0xc33707d6, 0xf4d50d87, 0x455a14ed,
    0xa9e3e905, 0xfcefa3f8, 0x676f02d9, 0x8d2a4c8a,
    0xfffa3942, 0x8771f681, 0x6d9d6122, 0xfde5380c,
    0xa4beea44, 0x4bdecfa9, 0xf6bb4b60, 0xbebfbc70,
    0x289b7ec6, 0xeaa127fa, 0xd4ef3085, 0x04881d05,
    0xd9d4d039, 0xe6db99e5, 0x1fa27cf8, 0xc4ac5665,
    0xf4292244, 0x432aff97, 0xab9423a7, 0xfc93a039,
    0x655b59c3, 0x8f0ccc92, 0xffeff47d, 0x85845dd1,
    0x6fa87e4f, 0xfe2ce6e0, 0xa3014314, 0x4e0811a1,
    0xf7537e82, 0xbd3af235, 0x2ad7d2bb, 0xeb86d391]

/-- Left rotation of a 32-bit word. -/
def rotl32 (x c : Nat) : Nat :=
  ((x <<< c) ||| (x >>> (32 - c))) % 2 ^ 32

/-- Bitwise complement of a 32-bit word. -/
def not32 (x : Nat) : Nat := x ^^^ 0xffffffff

/-- The `n` low-order bytes of `x`, least significant first. -/
def leBytes : Nat → Nat → List Nat
  | 0, _ => []
  | n + 1, x => x % 256 :: leBytes n (x / 256)

/-- The number read from bytes given least significant first. -/
def leWord : List Nat → Nat
  | [] => 0
  | b :: rest => b + 256 * leWord rest

/-- MD5 padding: a `0x80` byte, zero bytes up to 56 modulo 64, then the bit
length of the message as 8 bytes. -/
def md5Pad (msg : List Nat) : List Nat :=
  msg ++ [0x80] ++ List.replicate ((119 - msg.length % 64) % 64) 0 ++
    leBytes 8 ((8 * msg.length) % 2 ^ 64)

/-- One of the 64 operations of MD5 on the state `(a, b, c, d)` and the sixteen
message words `m`. -/
def md5Op (m : List Nat) (st : Nat × Nat × Nat × Nat) (i : Nat) : Nat × Nat × Nat × Nat :=
  let (a, b, c, d) := st
  let fg : Nat × Nat :=
    if i < 16 then ((b &&& c) ||| (not32 b &&& d), i)
    else if i < 32 then ((d &&& b) ||| (not32 d &&& c), (5 * i + 1) % 16)
    else if i < 48 then (b ^^^ c ^^^ d, (3 * i + 5) % 16)
    else (c ^^^ (b ||| not32 d), (7 * i) % 16)
  let f := (fg.1 + a + md5Consts.getD i 0 + m.getD fg.2 0) % 2 ^ 32
  (d, (b + rotl32 f (md5Shifts.getD i 0)) % 2 ^ 32, b, c)

/-- MD5 on one 64-byte block: the 64 operations, then the state is added in. -/
def md5Block (st : Nat × Nat × Nat × Nat) (block : List Nat) : Nat × Nat × Nat × Nat :=
  let m := (List.range 16).map (fun j => leWord ((block.drop (4 * j)).take 4))
  let (a, b, c, d) := (List.range 64).foldl (md5Op m) st
  ((st.1 + a) % 2 ^ 32, (st.2.1 + b) % 2 ^ 32, (st.2.2.1 + c) % 2 ^ 32,
    (st.2.2.2 + d) % 2 ^ 32)

/-- Go `md5.Sum` on the bytes of a string: the 16 bytes of the digest. -/
def md5Sum (msg : List Nat) : List Nat :=
  let padded := md5Pad msg
  let blocks := (List.range (padded.length / 64)).map (fun k => (padded.drop (64 * k)).take 64)
  let (a, b, c, d) := blocks.foldl md5Block (0x67452301, 0xefcdab89, 0x98badcfe, 0x10325476)
  leBytes 4 a ++ leBytes 4 b ++ leBytes 4 c ++ leBytes 4 d

/-- The lower-case hexadecimal digit of a value below 16. -/
def hexDigit (n : Nat) : Char :=
  "0123456789abcdef".data.getD n '0'

/-- Go `hex.EncodeToString`: two lower-case hexadecimal digits per byte. -/
def hexEncodeToString (bytes : List Nat) : String :=
  String.mk (bytes.flatMap (fun b => [hexDigit (b / 16), hexDigit (b % 16)]))

/-- Go function `getMD5Hash` (lines 332-335). -/
def getMD5Hash (s : String) : String :=
  hexEncodeToString (md5Sum (stringBytes s))

/-! ## HTTP transport and JSON -/

/-- An HTTP request handed to `http.Client.Do`. -/
structure Request where
  method : String
  url : String
  body : Option String
  contentType : Option String
  deriving DecidableEq, Repr

/-- What `http.Client.Do` followed by `io.ReadAll(resp.Body)` gives for a request. -/
inductive Reply where
  /-- `Do` returned an error. -/
  | failed (err : GoError)
  /-- `Do` returned a response with this status code; `body` is the result of
  `io.ReadAll` on its body. -/
  | response (statusCode : Int) (body : Except GoError String)

/-- The remote service behind the `http.Client` and its cookie jar: its reply to
a request is a function of the requests made before it. -/
structure Remote where
  /-- The error of `http.NewRequest(method, url, _)`, nil for a valid method and URL. -/
  newRequest : String → String → Option GoError
  /-- The reply to a request, given the requests made before it, oldest first. -/
  roundTrip : List Request → Request → Reply

/-- Package `encoding/json` on the types of the program. -/
structure Codec where
  unmarshalNonce : String → Except GoError nonceResponse
  marshalLogin : loginRequest → Except GoError String
  unmarshalObjects : String → Except GoError (List object)
  marshalBookingView : bookingViewRequest → Except GoError String
  unmarshalBookingView : String → Except GoError bookingViewResponse
  unmarshalOwned : String → Except GoError ownedReservationsResponse

/-- A calendar event of package `golang-ical` after `AddEvent`, `SetStartAt`,
`SetEndAt` and `SetSummary`. -/
structure VEvent where
  id : String
  startAt : Time
  endAt : Time
  summary : String
  deriving DecidableEq, Repr

/-- The collaborators of the program outside the repository. -/
structure Host where
  remote : Remote
  json : Codec
  /-- Go `time.LoadLocation`. -/
  loadLocation : String → Except GoError Location
  /-- The method `Serialize` of a calendar holding the given events. -/
  serialize : List VEvent → String

/-- Go struct `client` (lines 117-124).  The `http.Client` and its cookie jar
are the `Remote`; the field `objects` is a Go map. -/
structure client where
  endpoint : String
  user : String
  pass : String
  objects : Int → Option bookingViewResponse

/-- Go function `newClient` (lines 126-138).  `cookiejar.New(nil)` returns no
error. -/
def newClient (endpoint user pass : String) : Except GoError client :=
  .ok ⟨endpoint, user, pass, fun _ => none⟩

/-- Go method `client.post` (lines 303-330), on the list of requests made so far. -/
def client.post (c : client) (rm : Remote) (name : String) (r : Option String)
    (sent : List Request) : Except GoError String × List Request :=
  match rm.newRequest "POST" (c.endpoint ++ name) with
  | some err => (.error err, sent)
  | none =>
    let req : Request :=
      ⟨"POST", c.endpoint ++ name, r,
        if r.isSome then some "application/json; charset=UTF-8" else none⟩
    match rm.roundTrip sent req with
    | .failed err => (.error err, sent ++ [req])
    | .response _ (.error err) => (.error err, sent ++ [req])
    | .response statusCode (.ok body) =>
      if statusCode ≠ 200 then (.error (.text (name ++ ": " ++ body)), sent ++ [req])
      else (.ok body, sent ++ [req])

/-- Go method `client.nonce` (lines 140-152). -/
def client.nonce (c : client) (h : Host) (sent : List Request) :
    Except GoError nonceResponse × List Request :=
  match c.post h.remote "/fcgi_reservation/get_nonce" none sent with
  | (.error err, sent1) => (.error err, sent1)
  | (.ok body, sent1) =>
    match h.json.unmarshalNonce body with
    | .error err => (.error err, sent1)
    | .ok resp => (.ok resp, sent1)

/-- Go method `client.login` (lines 154-182). -/
def client.login (c : client) (h : Host) (sent : List Request) :
    Except GoError Unit × List Request :=
  match c.nonce h sent with
  | (.error err, sent1) => (.error err, sent1)
  | (.ok nonce, sent1) =>
    let payload : loginRequest :=
      { Nonce1 := nonce.Nonce1
        Nonce2 := nonce.Nonce2
        User := getMD5Hash (nonce.Nonce1 ++ c.user)
        Pass := getMD5Hash (nonce.Nonce2 ++ c.user ++ c.pass) }
    match h.json.marshalLogin payload with
    | .error err => (.error err, sent1)
    | .ok buf =>
      match c.post h.remote "/fcgi_reservation/login" (some buf) sent1 with
      | (.error err, sent2) => (.error err, sent2)
      | (.ok body, sent2) =>
        if stringsContains body "wrong_login" then (.error (.text ("login: " ++ body)), sent2)
        else (.ok (), sent2)

/-! ## Response cache -/

/-- The constant `appName`. -/
def appName : String := "axema-booking"

/-- The element loop of Go `path.Clean`; `out` is the stack of kept elements,
last kept first. -/
def pathCleanLoop (rooted : Bool) : List (List Char) → List (List Char) → List (List Char)
  | [], out => out.reverse
  | e :: es, out =>
    if e = [] ∨ e = ['.'] then pathCleanLoop rooted es out
    else if e = ['.', '.'] then
      match out with
      | top :: below =>
        if top = ['.', '.'] then pathCleanLoop rooted es (e :: out)
        else pathCleanLoop rooted es below
      | [] => if rooted then pathCleanLoop rooted es [] else pathCleanLoop rooted es [e]
    else pathCleanLoop rooted es (e :: out)

/-- Go `path.Clean`. -/
def pathClean (p : String) : String :=
  let rooted := p.data.head? = some '/'
  let kept := pathCleanLoop rooted (splitChars '/' p.data) []
  let body := String.intercalate "/" (kept.map String.mk)
  if rooted then "/" ++ body else if body = "" then "." else body

/-- Go `path.Join`: leading empty elements are ignored, the rest is joined
with slashes and cleaned; the result is empty when every element is. -/
def pathJoin (elem : List String) : String :=
  match elem.dropWhile (fun e => e = "") with
  | [] => ""
  | es => pathClean (String.intercalate "/" es)

/-- The cache directory as a map from file path to contents, with the lines
written by `log.Printf`. -/
structure CacheStore where
  /-- The XDG cache home directory. -/
  home : String
  files : String → Option String
  logged : List String

/-- The call `xdg.CacheFile(relPath)`: the path under the cache home. -/
def xdgCacheFile (st : CacheStore) (relPath : String) : Except GoError String :=
  .ok (pathJoin [st.home, relPath])

/-- The call `os.ReadFile(name)`: the stored contents, or an error satisfying
`os.ErrNotExist` when nothing is stored under the path. -/
def osReadFile (st : CacheStore) (name : String) : Except GoError String :=
  match st.files name with
  | some buf => .ok buf
  | none => .error (.notExist name)

/-- The call `os.Create(name)`: the file exists and is empty. -/
def osCreate (st : CacheStore) (name : String) : Except GoError Unit × CacheStore :=
  (.ok (), { st with files := fun p => if p = name then some "" else st.files p })

/-- The call `file.Write(buf)` on a file just created under `name`. -/
def fileWrite (st : CacheStore) (name buf : String) : Except GoError Unit × CacheStore :=
  (.ok (), { st with files := fun p => if p = name then some buf else st.files p })

/-- The call `file.Sync()`. -/
def fileSync (_st : CacheStore) (_name : String) : Except GoError Unit :=
  .ok ()

/-- The call `log.Printf("caching %s", cacheName)`. -/
def logCaching (st : CacheStore) (cacheName : String) : CacheStore :=
  { st with logged := st.logged ++ ["caching " ++ cacheName] }

/-- Go method `client.cache` (lines 270-301).  The producer `fn` acts on a
state `σ` of its own (for the callers in the program: the requests made). -/
def client.cache {σ : Type} (_c : client) (name : String)
    (fn : σ → Except GoError String × σ) (st : CacheStore) (s : σ) :
    Except GoError String × CacheStore × σ :=
  match xdgCacheFile st (pathJoin [appName, "cache", name]) with
  | .error err => (.error err, st, s)
  | .ok cacheName =>
    match osReadFile st cacheName with
    | .ok buf => (.ok buf, st, s)
    | .error err =>
      if err.isNotExist then
        let st1 := logCaching st cacheName
        match fn s with
        | (.error err, s1) => (.error err, st1, s1)
        | (.ok buf, s1) =>
          match osCreate st1 cacheName with
          | (.error err, st2) => (.error err, st2, s1)
          | (.ok _, st2) =>
            match fileWrite st2 cacheName buf with
            | (.error err, st3) => (.error err, st3, s1)
            | (.ok _, st3) =>
              match fileSync st3 cacheName with
              | .error err => (.error err, st3, s1)
              | .ok _ => (.ok buf, st3, s1)
      else (.error err, st, s)

/-- A producer instrumented with a count of its invocations. -/
def counted {σ : Type} (fn : σ → Except GoError String × σ) :
    σ × Nat → Except GoError String × (σ × Nat) :=
  fun sn => ((fn sn.1).1, ((fn sn.1).2, sn.2 + 1))

/-! ## Read operations (`src/main.go`, lines 184-268) -/

/-- Go method `client.requestBookingView` (lines 201-203). -/
def client.requestBookingView (c : client) (h : Host) (sent : List Request) :
    Except GoError String × List Request :=
  c.post h.remote "/fcgi_reservation/request_booking_view" none sent

/-- Go method `client.GetCachedBookingView` (lines 184-199). -/
def client.GetCachedBookingView (c : client) (h : Host) (st : CacheStore)
    (sent : List Request) : Except GoError (List object) × CacheStore × List Request :=
  let name := "request_booking_view.json"
  match c.cache name (fun s => c.requestBookingView h s) st sent with
  | (.error err, st1, sent1) => (.error err, st1, sent1)
  | (.ok body, st1, sent1) =>
    match h.json.unmarshalObjects body with
    | .error err => (.error err, st1, sent1)
    | .ok resp => (.ok resp, st1, sent1)

/-- Go method `client.requestBookingViewByObjectID` (lines 222-233). -/
def client.requestBookingViewByObjectID (c : client) (h : Host) (id : Int)
    (sent : List Request) : Except GoError String × List Request :=
  let payload : bookingViewRequest := { ReservationObjectID := id }
  match h.json.marshalBookingView payload with
  | .error err => (.error err, sent)
  | .ok buf => c.post h.remote "/fcgi_reservation/request_booking_view" (some buf) sent

/-- Go method `client.GetCachedBookingViewByObjectID` (lines 205-220). -/
def client.GetCachedBookingViewByObjectID (c : client) (h : Host) (id : Int)
    (st : CacheStore) (sent : List Request) :
    Except GoError bookingViewResponse × CacheStore × List Request :=
  let name := "request_booking_view_" ++ fmtD id ++ ".json"
  match c.cache name (fun s => c.requestBookingViewByObjectID h id s) st sent with
  | (.error err, st1, sent1) => (.error err, st1, sent1)
  | (.ok body, st1, sent1) =>
    match h.json.unmarshalBookingView body with
    | .error err => (.error err, st1, sent1)
    | .ok resp => (.ok resp, st1, sent1)

/-- Go method `client.requestOwnedReservations` (lines 266-268). -/
def client.requestOwnedReservations (c : client) (h : Host) (sent : List Request) :
    Except GoError String × List Request :=
  c.post h.remote "/fcgi_reservation/request_owned_reservations" none sent

/-- Go method `client.GetCachedOwnedReservations` (lines 235-250). -/
def client.GetCachedOwnedReservations (c : client) (h : Host) (st : CacheStore)
    (sent : List Request) :
    Except GoError ownedReservationsResponse × CacheStore × List Request :=
  let name := "request_owned_reservations.json"
  match c.cache name (fun s => c.requestOwnedReservations h s) st sent with
  | (.error err, st1, sent1) => (.error err, st1, sent1)
  | (.ok body, st1, sent1) =>
    match h.json.unmarshalOwned body with
    | .error err => (.error err, st1, sent1)
    | .ok resp => (.ok resp, st1, sent1)

/-- Go method `client.GetOwnedReservations` (lines 252-264). -/
def client.GetOwnedReservations (c : client) (h : Host) (sent : List Request) :
    Except GoError ownedReservationsResponse × List Request :=
  match c.requestOwnedReservations h sent with
  | (.error err, sent1) => (.error err, sent1)
  | (.ok body, sent1) =>
    match h.json.unmarshalOwned body with
    | .error err => (.error err, sent1)
    | .ok resp => (.ok resp, sent1)

/-! ## Orchestration (`src/main.go`, lines 356-430) -/

/-- The process state `run` acts on. -/
structure World where
  /-- Go `os.Getenv`. -/
  environ : String → String
  /-- The HTTP requests made so far, oldest first. -/
  sent : List Request
  store : CacheStore
  /-- The byte strings written to standard output, oldest first. -/
  stdout : List String

/-- The loop `for _, o := range objects` of `run` (lines 387-393) on the
remaining objects: each schedule is fetched through the cache and stored in the
map under the object's id; the first error ends the loop. -/
def run.objectsLoop (h : Host) (c : client) :
    List object → CacheStore → List Request → Except GoError client × CacheStore × List Request
  | [], st, sent => (.ok c, st, sent)
  | o :: rest, st, sent =>
    match c.GetCachedBookingViewByObjectID h o.ID st sent with
    | (.error err, st1, sent1) => (.error err, st1, sent1)
    | (.ok resp, st1, sent1) =>
      run.objectsLoop h
        { c with objects := fun k => if k = o.ID then some resp else c.objects k } rest st1 sent1

/-- The body of the loop `for _, r := range reservations.Bookings` of `run`
(lines 403-424): the calendar with the event of `r` added, or the error or panic
the body ends with. -/
def run.resolveBooking (h : Host) (c : client) (cal : List VEvent) (r : booking) :
    Except Failure (List VEvent) :=
  match c.objects r.ObjectID with
  | none => .error (.error (.text ("bad object " ++ fmtD r.ObjectID)))
  | some o =>
    match o.GetSchedulePeriodByID r.SchedulePeriodID with
    | (day, period, lu) =>
      match lu.GetDate r.WeekNumber day with
      | .error p => .error (.panic p)
      | .ok date =>
        if date = "" then
          .error (.error (.text ("failed to get date for reservation " ++ fmtD r.ID)))
        else
          match toTime h.loadLocation date period.StartTime with
          | .error err => .error (.error err)
          | .ok start =>
            match toTime h.loadLocation date period.StopTime with
            | .error err => .error (.error err)
            | .ok stop =>
              .ok (cal ++
                [{ id := c.endpoint ++ "/" ++ fmtD r.ID ++ "/" ++ fmtD r.WeekNumber ++ "/" ++
                          fmtD r.SchedulePeriodID
                   startAt := start
                   endAt := stop
                   summary := lu.Name }])

/-- The loop `for _, r := range reservations.Bookings` of `run` (lines 402-425)
on the remaining bookings. -/
def run.bookingsLoop (h : Host) (c : client) : List booking → List VEvent →
    Except Failure (List VEvent)
  | [], cal => .ok cal
  | r :: rest, cal =>
    match run.resolveBooking h c cal r with
    | .error f => .error f
    | .ok cal1 => run.bookingsLoop h c rest cal1

/-- Go function `run` (lines 356-430). -/
def run (h : Host) (w : World) : Except Failure Unit × World :=
  let endpoint := w.environ "AXEMA_ENDPOINT"
  if endpoint = "" then (.error (.error (.text "AXEMA_ENDPOINT not set")), w)
  else
    let user := w.environ "AXEMA_USER"
    if user = "" then (.error (.error (.text "AXEMA_USER not set")), w)
    else
      let pass := w.environ "AXEMA_PASS"
      if pass = "" then (.error (.error (.text "AXEMA_PASS not set")), w)
      else
        match newClient endpoint user pass with
        | .error err => (.error (.error err), w)
        | .ok c =>
          match c.login h w.sent with
          | (.error err, sent1) => (.error (.error err), { w with sent := sent1 })
          | (.ok _, sent1) =>
            match c.GetCachedBookingView h w.store sent1 with
            | (.error err, st2, sent2) =>
              (.error (.error err), { w with sent := sent2, store := st2 })
            | (.ok objects, st2, sent2) =>
              match run.objectsLoop h { c with objects := fun _ => none } objects st2 sent2 with
              | (.error err, st3, sent3) =>
                (.error (.error err), { w with sent := sent3, store := st3 })
              | (.ok c3, st3, sent3) =>
                match c3.GetOwnedReservations h sent3 with
                | (.error err, sent4) =>
                  (.error (.error err), { w with sent := sent4, store := st3 })
                | (.ok reservations, sent4) =>
                  match run.bookingsLoop h c3 reservations.Bookings [] with
                  | .error f => (.error f, { w with sent := sent4, store := st3 })
                  | .ok cal =>
                    (.ok (), { w with sent := sent4, store := st3,
                                      stdout := w.stdout ++ [h.serialize cal] })

/-! ## Well-formed dates -/

/-- The number written by a list of decimal digits. -/
def decimalValue (cs : List Char) : Nat :=
  cs.foldl (fun n c => n * 10 + (c.toNat - 48)) 0

/-- An unsigned decimal numeral: at least one character, decimal digits only,
with value `n`, which fits a Go `int`. -/
def IsDecimal (s : String) (n : Int) : Prop :=
  s.data ≠ [] ∧ (∀ c ∈ s.data, c.isDigit = true) ∧ n = (decimalValue s.data : Int) ∧
    decimalValue s.data < 2 ^ 63

instance (s : String) (n : Int) : Decidable (IsDecimal s n) := by
  unfold IsDecimal
  infer_instance

/-! ## Example data -/

/-- The laundry unit of the end-to-end example: week 3 with the single day
2024-01-15, and period 7 from minute 480 to minute 540 on day 0. -/
def exampleUnit : laundryUnit :=
  { ID := 1
    Name := "Laundry"
    WeekList := [{ WeekNumber := 3, WeekDays := [{ Date := "2024-01-15" }] }]
    SchedulePeriodList := [[{ ID := 7, StartTime := 480, StopTime := 540 }]] }

/-- A remote service for the examples: the first request is answered with the
nonce pair `a b`, every later one with `loginBody`; JSON is replaced by a
blank-separated encoding, the object list holds object 1 with the example unit,
the owned reservations are `bookings`, and every zone name loads. -/
def exampleHostWith (loginBody : String) (bookings : List booking) : Host :=
  { remote :=
      { newRequest := fun _ _ => none
        roundTrip := fun sent _ =>
          if sent.length = 0 then .response 200 (.ok "a b") else .response 200 (.ok loginBody) }
    json :=
      { unmarshalNonce := fun body =>
          match stringsSplit body ' ' with
          | [n1, n2] => .ok ⟨n1, n2⟩
          | _ => .error (.foreign "nonce")
        marshalLogin := fun p =>
          .ok (p.Nonce1 ++ " " ++ p.Nonce2 ++ " " ++ p.User ++ " " ++ p.Pass)
        unmarshalObjects := fun _ => .ok [⟨1, "Laundry"⟩]
        marshalBookingView := fun r => .ok (fmtD r.ReservationObjectID)
        unmarshalBookingView := fun _ => .ok ⟨"", [exampleUnit]⟩
        unmarshalOwned := fun _ => .ok ⟨bookings⟩ }
    loadLocation := fun name => .ok ⟨name⟩
    serialize := fun events => String.intercalate "\n" (events.map (fun e => e.id)) }

/-- The example service with the single booking 10 of object 1, week 3 and
period 7. -/
def exampleHost (loginBody : String) : Host :=
  exampleHostWith loginBody [⟨10, 1, 3, 7⟩]

/-- A client for the examples, with user `u`, secret `p` and the example unit
stored under object id 1. -/
def exampleClient : client :=
  { endpoint := "https://axema.example"
    user := "u"
    pass := "p"
    objects := fun k => if k = 1 then some ⟨"", [exampleUnit]⟩ else none }

/-- A process state for the examples: the three variables set, nothing sent,
an empty cache. -/
def exampleWorld : World :=
  { environ := fun k =>
      if k = "AXEMA_ENDPOINT" then "https://axema.example"
      else if k = "AXEMA_USER" then "u"
      else if k = "AXEMA_PASS" then "p"
      else ""
    sent := []
    store := { home := "/home/u/.cache", files := fun _ => none, logged := [] }
    stdout := [] }

/-! ## Properties of the schedule lookups -/

theorem inner_eq_none_iff (l : List schedulePeriod) (id : Int) :
    laundryUnit.GetSchedulePeriodByID.inner l id = none ↔ ∀ slot ∈ l, slot.ID ≠ id := by
  induction l with
  | nil => simp [laundryUnit.GetSchedulePeriodByID.inner]
  | cons s rest ih =>
    by_cases h : s.ID = id
    · simp [laundryUnit.GetSchedulePeriodByID.inner, h]
    · simp [laundryUnit.GetSchedulePeriodByID.inner, h, ih]

theorem inner_eq_some (l : List schedulePeriod) (id : Int) (p : schedulePeriod)
    (h : laundryUnit.GetSchedulePeriodByID.inner l id = some p) :
    ∃ j : Nat, l[j]? = some p ∧ p.ID = id ∧
      ∀ j2 < j, ∀ q, l[j2]? = some q → q.ID ≠ id := by
  induction l with
  | nil => simp [laundryUnit.GetSchedulePeriodByID.inner] at h
  | cons s rest ih =>
    by_cases hs : s.ID = id
    · simp [laundryUnit.GetSchedulePeriodByID.inner, hs] at h
      subst h
      exact ⟨0, by simp, hs, by intro j2 hj2; omega⟩
    · simp [laundryUnit.GetSchedulePeriodByID.inner, hs] at h
      obtain ⟨j, hj, hp, hmin⟩ := ih h
      refine ⟨j + 1, by simpa using hj, hp, ?_⟩
      intro j2 hj2 q hq
      cases j2 with
      | zero =>
        simp at hq
        subst hq
        exact hs
      | succ n =>
        simp at hq
        exact hmin n (by omega) q hq

theorem outer_eq_notFound_iff (l : List (List schedulePeriod)) (day : Nat) (id : Int) :
    laundryUnit.GetSchedulePeriodByID.outer l day id = (-1, schedulePeriod.zero) ↔
      ∀ item ∈ l, ∀ slot ∈ item, slot.ID ≠ id := by
  induction l generalizing day with
  | nil => simp [laundryUnit.GetSchedulePeriodByID.outer]
  | cons item rest ih =>
    cases hin : laundryUnit.GetSchedulePeriodByID.inner item id with
    | none =>
      have h0 := (inner_eq_none_iff item id).1 hin
      simp only [laundryUnit.GetSchedulePeriodByID.outer, hin, ih (day + 1)]
      constructor
      · intro h it hit
        rcases List.mem_cons.1 hit with rfl | hr
        · exact h0
        · exact h it hr
      · intro h it hit
        exact h it (List.mem_cons_of_mem _ hit)
    | some p =>
      obtain ⟨j, hj, hp, -⟩ := inner_eq_some item id p hin
      simp only [laundryUnit.GetSchedulePeriodByID.outer, hin]
      constructor
      · intro h
        have h1 : ((day : Int)) = -1 := congrArg Prod.fst h
        omega
      · intro h
        exact absurd hp (h item (List.mem_cons_self _ _) p (List.getElem?_mem hj))

theorem outer_found (l : List (List schedulePeriod)) (day : Nat) (id : Int)
    (h : ∃ item ∈ l, ∃ slot ∈ item, slot.ID = id) :
    ∃ (k j : Nat) (item : List schedulePeriod) (p : schedulePeriod),
      laundryUnit.GetSchedulePeriodByID.outer l day id = (((day + k : Nat) : Int), p) ∧
      l[k]? = some item ∧ item[j]? = some p ∧ p.ID = id ∧
      (∀ k2 < k, ∀ it, l[k2]? = some it → ∀ q ∈ it, q.ID ≠ id) ∧
      (∀ j2 < j, ∀ q, item[j2]? = some q → q.ID ≠ id) := by
  induction l generalizing day with
  | nil => simp at h
  | cons item rest ih =>
    cases hin : laundryUnit.GetSchedulePeriodByID.inner item id with
    | some p =>
      obtain ⟨j, hj, hp, hmin⟩ := inner_eq_some item id p hin
      refine ⟨0, j, item, p, ?_, by simp, hj, hp, ?_, hmin⟩
      · simp [laundryUnit.GetSchedulePeriodByID.outer, hin]
      · intro k2 hk2; omega
    | none =>
      have h0 := (inner_eq_none_iff item id).1 hin
      have hrest : ∃ it ∈ rest, ∃ slot ∈ it, slot.ID = id := by
        obtain ⟨it, hit, slot, hslot, hid⟩ := h
        rcases List.mem_cons.1 hit with rfl | hr
        · exact absurd hid (h0 slot hslot)
        · exact ⟨it, hr, slot, hslot, hid⟩
      obtain ⟨k, j, it, p, hres, hk, hj, hp, hprev, hmin⟩ := ih (day + 1) hrest
      refine ⟨k + 1, j, it, p, ?_, by simpa using hk, hj, hp, ?_, hmin⟩
      · simp only [laundryUnit.GetSchedulePeriodByID.outer, hin, hres]
        congr 1
        push_cast
        omega
      · intro k2 hk2 it2 hit2 q hq
        cases k2 with
        | zero =>
          simp at hit2
          subst hit2
          exact h0 q hq
        | succ n =>
          simp at hit2
          exact hprev n (by omega) it2 hit2 q hq

/-- The day index returned by the outer loop is `-1` or lies at or after the
index the scan started from. -/
theorem outer_fst (l : List (List schedulePeriod)) (day : Nat) (id : Int) :
    laundryUnit.GetSchedulePeriodByID.outer l day id = (-1, schedulePeriod.zero) ∨
      (day : Int) ≤ (laundryUnit.GetSchedulePeriodByID.outer l day id).1 := by
  induction l generalizing day with
  | nil => left; rfl
  | cons item rest ih =>
    cases hin : laundryUnit.GetSchedulePeriodByID.inner item id with
    | some p => right; simp [laundryUnit.GetSchedulePeriodByID.outer, hin]
    | none =>
      simp only [laundryUnit.GetSchedulePeriodByID.outer, hin]
      rcases ih (day + 1) with h | h
      · left; exact h
      · right; push_cast at h; omega

/-- C1: `laundryUnit.GetSchedulePeriodByID id` returns `(-1, schedulePeriod{})`
exactly when no entry of any day has the id; otherwise it returns `(d, p)` where
`p` is entry `j` of day list `d`, `d < len(SchedulePeriodList)`, `p.ID = id`, no
entry of an earlier day has the id and no earlier entry of day `d` has it. -/
theorem GetSchedulePeriodByID_first_match (lu : laundryUnit) (id : Int) :
    (lu.GetSchedulePeriodByID id = (-1, schedulePeriod.zero) ↔
      ∀ item ∈ lu.SchedulePeriodList, ∀ slot ∈ item, slot.ID ≠ id) ∧
    ((∃ item ∈ lu.SchedulePeriodList, ∃ slot ∈ item, slot.ID = id) →
      ∃ (d j : Nat) (item : List schedulePeriod) (p : schedulePeriod),
        lu.GetSchedulePeriodByID id = ((d : Int), p) ∧
        d < lu.SchedulePeriodList.length ∧
        lu.SchedulePeriodList[d]? = some item ∧ item[j]? = some p ∧ p.ID = id ∧
        (∀ d2 < d, ∀ it, lu.SchedulePeriodList[d2]? = some it → ∀ q ∈ it, q.ID ≠ id) ∧
        (∀ j2 < j, ∀ q, item[j2]? = some q → q.ID ≠ id)) := by
  refine ⟨outer_eq_notFound_iff lu.SchedulePeriodList 0 id, ?_⟩
  intro h
  obtain ⟨k, j, item, p, hres, hk, hj, hp, hprev, hmin⟩ :=
    outer_found lu.SchedulePeriodList 0 id h
  refine ⟨k, j, item, p, ?_, ?_, hk, hj, hp, hprev, hmin⟩
  · simpa [laundryUnit.GetSchedulePeriodByID] using hres
  · by_contra hlen
    rw [List.getElem?_eq_none (by omega)] at hk
    exact absurd hk (by simp)

/-- Where the week scan ends on a day index that is not negative: with a string,
which is empty or the date at position `day` of a week with the number. -/
theorem scan_of_nonneg (weeks : List week) (weekNumber day : Int) (hday : 0 ≤ day) :
    ∃ s, laundryUnit.GetDate.scan weeks weekNumber day = .ok s ∧
      (s = "" ∨ ∃ w ∈ weeks, w.WeekNumber = weekNumber ∧
        ∃ wd, w.WeekDays[day.toNat]? = some wd ∧ s = wd.Date) := by
  induction weeks with
  | nil => exact ⟨"", rfl, Or.inl rfl⟩
  | cons w rest ih =>
    obtain ⟨s, hs, hcase⟩ := ih
    have hrest : ∃ s, laundryUnit.GetDate.scan rest weekNumber day = .ok s ∧
        (s = "" ∨ ∃ w2 ∈ w :: rest, w2.WeekNumber = weekNumber ∧
          ∃ wd, w2.WeekDays[day.toNat]? = some wd ∧ s = wd.Date) := by
      refine ⟨s, hs, ?_⟩
      rcases hcase with h | ⟨w2, hw2, hrest⟩
      · exact Or.inl h
      · exact Or.inr ⟨w2, List.mem_cons_of_mem _ hw2, hrest⟩
    by_cases hw : w.WeekNumber = weekNumber
    · by_cases hlen : day < (w.WeekDays.length : Int)
      · have hlt : day.toNat < w.WeekDays.length := by omega
        refine ⟨(w.WeekDays[day.toNat]).Date, ?_, Or.inr ⟨w, List.mem_cons_self _ _, hw, ?_⟩⟩
        · simp [laundryUnit.GetDate.scan, hw, hlen, sliceIndex, hday,
            List.getElem?_eq_getElem hlt]
        · exact ⟨w.WeekDays[day.toNat], List.getElem?_eq_getElem hlt, rfl⟩
      · simpa [laundryUnit.GetDate.scan, hw, hlen] using hrest
    · simpa [laundryUnit.GetDate.scan, hw] using hrest

/-- The week scan gives the empty string when every week with the number has at
most `day` entries. -/
theorem scan_eq_empty (weeks : List week) (weekNumber day : Int)
    (h : ∀ w ∈ weeks, w.WeekNumber = weekNumber → (w.WeekDays.length : Int) ≤ day) :
    laundryUnit.GetDate.scan weeks weekNumber day = .ok "" := by
  induction weeks with
  | nil => rfl
  | cons w rest ih =>
    have hrest := ih (fun w2 hw2 => h w2 (List.mem_cons_of_mem _ hw2))
    by_cases hw : w.WeekNumber = weekNumber
    · have hlen : ¬ day < (w.WeekDays.length : Int) := by
        have := h w (List.mem_cons_self _ _) hw
        omega
      simpa [laundryUnit.GetDate.scan, hw, hlen] using hrest
    · simpa [laundryUnit.GetDate.scan, hw] using hrest

/-- The week scan panics on a negative day index as soon as a week has the
number. -/
theorem scan_of_neg (weeks : List week) (weekNumber day : Int) (hday : day < 0)
    (h : ∃ w ∈ weeks, w.WeekNumber = weekNumber) :
    ∃ n, laundryUnit.GetDate.scan weeks weekNumber day = .error (.indexOutOfRange day n) := by
  induction weeks with
  | nil => simp at h
  | cons w rest ih =>
    by_cases hw : w.WeekNumber = weekNumber
    · have hlen : day < (w.WeekDays.length : Int) := by omega
      have hneg : ¬ (0 ≤ day) := by omega
      exact ⟨w.WeekDays.length, by simp [laundryUnit.GetDate.scan, hw, hlen, sliceIndex, hneg]⟩
    · obtain ⟨w2, hw2, hnum⟩ := h
      have hin : w2 ∈ rest := by
        rcases List.mem_cons.1 hw2 with rfl | hr
        · exact absurd hnum hw
        · exact hr
      obtain ⟨n, hn⟩ := ih ⟨w2, hin, hnum⟩
      exact ⟨n, by simpa [laundryUnit.GetDate.scan, hw] using hn⟩

/-- C2, as the code has it: `GetDate(w, d)` returns the empty string when no
week of `WeekList` has number `w`, and when every week with number `w` has at
most `d` entries in `WeekDays`. -/
theorem GetDate_not_found (lu : laundryUnit) (w d : Int) :
    ((∀ wk ∈ lu.WeekList, wk.WeekNumber ≠ w) → lu.GetDate w d = .ok "") ∧
    ((∀ wk ∈ lu.WeekList, wk.WeekNumber = w → (wk.WeekDays.length : Int) ≤ d) →
      lu.GetDate w d = .ok "") := by
  constructor
  · intro h
    exact scan_eq_empty lu.WeekList w d (fun wk hwk hnum => absurd hnum (h wk hwk))
  · intro h
    exact scan_eq_empty lu.WeekList w d h

/-- C2 fails as stated: the first week numbered 3 has no entry at day index 0,
yet `GetDate(3, 0)` returns the date of a later week with the same number. -/
theorem GetDate_first_week_short_counterexample :
    (([⟨3, []⟩, ⟨3, [⟨"2024-01-15"⟩]⟩] : List week).find? (fun wk => wk.WeekNumber = 3)
        = some ⟨3, []⟩) ∧
    (((⟨3, []⟩ : week).WeekDays.length : Int) ≤ 0) ∧
    (laundryUnit.mk 1 "unit" [⟨3, []⟩, ⟨3, [⟨"2024-01-15"⟩]⟩] []).GetDate 3 0
        = .ok "2024-01-15" ∧
    (laundryUnit.mk 1 "unit" [⟨3, []⟩, ⟨3, [⟨"2024-01-15"⟩]⟩] []).GetDate 3 0 ≠ .ok "" := by
  decide

/-- C2, witness: two weeks numbered 3, both too short for day index 1. -/
theorem GetDate_not_found_witness :
    (laundryUnit.mk 1 "unit" [⟨3, []⟩, ⟨4, [⟨"2024-01-22"⟩]⟩, ⟨3, [⟨"2024-01-15"⟩]⟩] []).GetDate 3 1
      = .ok "" :=
  (GetDate_not_found
    (laundryUnit.mk 1 "unit" [⟨3, []⟩, ⟨4, [⟨"2024-01-22"⟩]⟩, ⟨3, [⟨"2024-01-15"⟩]⟩] []) 3 1).2
    (by decide)

/-- C10: on a day index that is not negative `GetDate` returns a string, empty
or the date of an in-bounds weekday of a week with the number; on a negative day
index it panics with an index out of range as soon as a week has the number, as
`GetDate(3, -1)` does on a unit whose week 3 has one day. -/
theorem GetDate_negative_day_panics :
    (∀ (lu : laundryUnit) (w d : Int), 0 ≤ d →
      ∃ s, lu.GetDate w d = .ok s ∧
        (s = "" ∨ ∃ wk ∈ lu.WeekList, wk.WeekNumber = w ∧
          ∃ wd, wk.WeekDays[d.toNat]? = some wd ∧ s = wd.Date)) ∧
    (∀ (lu : laundryUnit) (w d : Int), d < 0 → (∃ wk ∈ lu.WeekList, wk.WeekNumber = w) →
      ∃ n, lu.GetDate w d = .error (.indexOutOfRange d n)) ∧
    (laundryUnit.mk 1 "unit" [⟨3, [⟨"2024-01-15"⟩]⟩] []).GetDate 3 (-1)
      = .error (.indexOutOfRange (-1) 1) := by
  refine ⟨?_, ?_, by decide⟩
  · intro lu w d hd
    exact scan_of_nonneg lu.WeekList w d hd
  · intro lu w d hd h
    exact scan_of_neg lu.WeekList w d hd h

/-! ## Properties of `toTime` -/

theorem splitChars_of_not_mem (sep : Char) (f : List Char) (h : ∀ c ∈ f, c ≠ sep) :
    splitChars sep f = [f] := by
  induction f with
  | nil => rfl
  | cons c cs ih =>
    have hc : c ≠ sep := h c (List.mem_cons_self _ _)
    have hcs := ih (fun x hx => h x (List.mem_cons_of_mem _ hx))
    simp [splitChars, hc, hcs]

theorem splitChars_append_sep (sep : Char) (f rest : List Char) (h : ∀ c ∈ f, c ≠ sep) :
    splitChars sep (f ++ sep :: rest) = f :: splitChars sep rest := by
  induction f with
  | nil => simp [splitChars]
  | cons c cs ih =>
    have hc : c ≠ sep := h c (List.mem_cons_self _ _)
    have hcs := ih (fun x hx => h x (List.mem_cons_of_mem _ hx))
    simp [splitChars, hc, hcs]

theorem isDigit_ne_dash (c : Char) (h : c.isDigit = true) : c ≠ '-' := by
  rintro rfl
  revert h
  decide

theorem isDigit_ne_plus (c : Char) (h : c.isDigit = true) : c ≠ '+' := by
  rintro rfl
  revert h
  decide

theorem le_foldl_digits (cs : List Char) (n : Nat) :
    n ≤ cs.foldl (fun n c => n * 10 + (c.toNat - 48)) n := by
  induction cs generalizing n with
  | nil => simp
  | cons c rest ih =>
    simp only [List.foldl_cons]
    have := ih (n * 10 + (c.toNat - 48))
    omega

theorem parseUintLoop_digits (cs : List Char) (n : Nat)
    (hdig : ∀ c ∈ cs, c.isDigit = true)
    (hlt : cs.foldl (fun n c => n * 10 + (c.toNat - 48)) n < 2 ^ 64) :
    parseUintLoop cs n = .ok (cs.foldl (fun n c => n * 10 + (c.toNat - 48)) n) := by
  induction cs generalizing n with
  | nil => rfl
  | cons c rest ih =>
    have hc : c.isDigit = true := hdig c (List.mem_cons_self _ _)
    simp only [List.foldl_cons] at hlt ⊢
    have hstep : n * 10 + (c.toNat - 48) < 2 ^ 64 :=
      lt_of_le_of_lt (le_foldl_digits rest _) hlt
    simp only [parseUintLoop, hc, hstep, if_true]
    exact ih _ (fun x hx => hdig x (List.mem_cons_of_mem _ hx)) hlt

/-- `strconv.Atoi` reads an unsigned decimal numeral as its value. -/
theorem strconvAtoi_of_isDecimal (s : String) (n : Int) (h : IsDecimal s n) :
    strconvAtoi s = .ok n := by
  obtain ⟨hne, hdig, hval, hlt⟩ := h
  cases hs : s.data with
  | nil => exact absurd hs hne
  | cons d ds =>
    rw [hs] at hdig hval hlt
    have hd : d.isDigit = true := hdig d (List.mem_cons_self _ _)
    have h1 : d ≠ '-' := isDigit_ne_dash d hd
    have h2 : d ≠ '+' := isDigit_ne_plus d hd
    have hloop := parseUintLoop_digits (d :: ds) 0 hdig
      (lt_trans hlt (by norm_num))
    have hlt2 : List.foldl (fun n c => n * 10 + (c.toNat - 48)) 0 (d :: ds) < 2 ^ 63 := hlt
    unfold strconvAtoi
    rw [hs]
    split
    · rename_i heq
      exact absurd (List.cons.inj heq).1 h1
    · rename_i heq
      exact absurd (List.cons.inj heq).1 h2
    · simp only [hloop, Bool.false_eq_true, if_false, hlt2, if_true]
      rw [hval]
      rfl

theorem not_mem_dash_of_isDecimal (s : String) (n : Int) (h : IsDecimal s n) :
    ∀ c ∈ s.data, c ≠ '-' :=
  fun c hc => isDigit_ne_dash c (h.2.1 c hc)

/-- `toTime` on a date of three unsigned decimal numerals joined by dashes, when
the zone loads and the minute of day is not negative. -/
theorem toTime_of_wellFormed (loadLocation : String → Except GoError Location)
    (loc : Location) (ys ms ds : String) (Y M D mins : Int)
    (hloc : loadLocation "Europe/Stockholm" = .ok loc)
    (hY : IsDecimal ys Y) (hM : IsDecimal ms M) (hD : IsDecimal ds D) (hmins : 0 ≤ mins) :
    toTime loadLocation (ys ++ "-" ++ ms ++ "-" ++ ds) mins =
      .ok ⟨Y, M, D, mins / 60, mins % 60, 0, 0, loc⟩ := by
  have hsplit : stringsSplit (ys ++ "-" ++ ms ++ "-" ++ ds) '-' = [ys, ms, ds] := by
    have hdata : (ys ++ "-" ++ ms ++ "-" ++ ds).data
        = ys.data ++ '-' :: (ms.data ++ '-' :: ds.data) := by
      simp [String.data_append]
    unfold stringsSplit
    rw [hdata, splitChars_append_sep _ _ _ (not_mem_dash_of_isDecimal ys Y hY),
      splitChars_append_sep _ _ _ (not_mem_dash_of_isDecimal ms M hM),
      splitChars_of_not_mem _ _ (not_mem_dash_of_isDecimal ds D hD)]
    rfl
  have hdiv : mins.tdiv 60 = mins / 60 := Int.tdiv_eq_ediv hmins (by norm_num)
  have hmod : mins - 60 * (mins / 60) = mins % 60 := (Int.emod_def mins 60).symm
  unfold toTime
  rw [hsplit]
  simp only [strconvAtoi_of_isDecimal ys Y hY, strconvAtoi_of_isDecimal ms M hM,
    strconvAtoi_of_isDecimal ds D hD, errOf, errorsJoin, List.filterMap, id, hloc, valOf,
    hdiv, hmod]

theorem bookingView_scan_skip (pre post : List laundryUnit) (lu : laundryUnit) (id d : Int)
    (period : schedulePeriod)
    (hpre : ∀ u ∈ pre, (u.GetSchedulePeriodByID id).1 < 0)
    (hperiod : lu.GetSchedulePeriodByID id = (d, period)) (hd : 0 ≤ d) :
    bookingViewResponse.GetSchedulePeriodByID.scan (pre ++ lu :: post) id = (d, period, lu) := by
  induction pre with
  | nil => simp [bookingViewResponse.GetSchedulePeriodByID.scan, hperiod, hd]
  | cons u rest ih =>
    have hu : ¬ (u.GetSchedulePeriodByID id).1 ≥ 0 := by
      have := hpre u (List.mem_cons_self _ _)
      omega
    have hrest := ih (fun x hx => hpre x (List.mem_cons_of_mem _ hx))
    simp only [List.cons_append, bookingViewResponse.GetSchedulePeriodByID.scan]
    rw [if_neg hu]
    exact hrest

/-- C3: when `lu.GetSchedulePeriodByID(p) = (d, period)` with `d >= 0`, the date
`lu.GetDate(w, d)` is `Y-M-D` in unsigned decimal numerals, both minute values
are at least 0 and the zone `Europe/Stockholm` loads as `loc`, then `toTime` on
the date with `StartTime` and with `StopTime` succeeds with the civil times
`(Y, M, D, StartTime / 60, StartTime mod 60, 0)` and `(Y, M, D, StopTime / 60,
StopTime mod 60, 0)` in `loc`, and the loop body of `run` adds the event with
these two times for a booking `(w, p)` whose schedule has `lu` as the first unit
holding `p`. -/
theorem resolution_times (h : Host) (loc : Location) (lu : laundryUnit) (w p d : Int)
    (period : schedulePeriod) (ys ms ds : String) (Y M D : Int)
    (hloc : h.loadLocation "Europe/Stockholm" = .ok loc)
    (hperiod : lu.GetSchedulePeriodByID p = (d, period)) (hd : 0 ≤ d)
    (hdate : lu.GetDate w d = .ok (ys ++ "-" ++ ms ++ "-" ++ ds))
    (hY : IsDecimal ys Y) (hM : IsDecimal ms M) (hD : IsDecimal ds D)
    (hstart : 0 ≤ period.StartTime) (hstop : 0 ≤ period.StopTime) :
    toTime h.loadLocation (ys ++ "-" ++ ms ++ "-" ++ ds) period.StartTime
      = .ok ⟨Y, M, D, period.StartTime / 60, period.StartTime % 60, 0, 0, loc⟩ ∧
    toTime h.loadLocation (ys ++ "-" ++ ms ++ "-" ++ ds) period.StopTime
      = .ok ⟨Y, M, D, period.StopTime / 60, period.StopTime % 60, 0, 0, loc⟩ ∧
    ∀ (c : client) (cal : List VEvent) (r : booking) (ts : String)
      (pre post : List laundryUnit),
      r.WeekNumber = w → r.SchedulePeriodID = p →
      c.objects r.ObjectID = some ⟨ts, pre ++ lu :: post⟩ →
      (∀ u ∈ pre, (u.GetSchedulePeriodByID p).1 < 0) →
      run.resolveBooking h c cal r = .ok (cal ++
        [{ id := c.endpoint ++ "/" ++ fmtD r.ID ++ "/" ++ fmtD w ++ "/" ++ fmtD p
           startAt := ⟨Y, M, D, period.StartTime / 60, period.StartTime % 60, 0, 0, loc⟩
           endAt := ⟨Y, M, D, period.StopTime / 60, period.StopTime % 60, 0, 0, loc⟩
           summary := lu.Name }]) := by
  have hs := toTime_of_wellFormed h.loadLocation loc ys ms ds Y M D period.StartTime
    hloc hY hM hD hstart
  have he := toTime_of_wellFormed h.loadLocation loc ys ms ds Y M D period.StopTime
    hloc hY hM hD hstop
  refine ⟨hs, he, ?_⟩
  intro c cal r ts pre post hw hp hobj hpre
  have hscan : bookingViewResponse.GetSchedulePeriodByID ⟨ts, pre ++ lu :: post⟩ p
      = (d, period, lu) :=
    bookingView_scan_skip pre post lu p d period hpre hperiod hd
  have hne : ¬ (ys ++ "-" ++ ms ++ "-" ++ ds = "") := by
    intro hcontra
    have hdata := congrArg String.data hcontra
    simp [String.data_append] at hdata
  unfold run.resolveBooking
  rw [hobj]
  simp only [hp, hw, hscan, hdate, if_neg hne, hs, he]

/-- C3, at the example of the specification: week 3 with the single day
2024-01-15, period 7 from minute 480 to minute 540, booking of week 3 and
period 7: start 2024-01-15 08:00 and end 2024-01-15 09:00. -/
theorem resolution_times_witness :
    toTime (exampleHost "ok").loadLocation "2024-01-15" 480
      = .ok ⟨2024, 1, 15, 8, 0, 0, 0, ⟨"Europe/Stockholm"⟩⟩ ∧
    toTime (exampleHost "ok").loadLocation "2024-01-15" 540
      = .ok ⟨2024, 1, 15, 9, 0, 0, 0, ⟨"Europe/Stockholm"⟩⟩ ∧
    run.resolveBooking (exampleHost "ok") exampleClient [] ⟨10, 1, 3, 7⟩
      = .ok [{ id := "https://axema.example/10/3/7"
               startAt := ⟨2024, 1, 15, 8, 0, 0, 0, ⟨"Europe/Stockholm"⟩⟩
               endAt := ⟨2024, 1, 15, 9, 0, 0, 0, ⟨"Europe/Stockholm"⟩⟩
               summary := "Laundry" }] := by
  have key := resolution_times (exampleHost "ok") ⟨"Europe/Stockholm"⟩ exampleUnit 3 7 0
    ⟨7, 480, 540⟩ "2024" "01" "15" 2024 1 15 rfl (by decide) (by decide) (by decide)
    (by decide) (by decide) (by decide) (by decide) (by decide)
  exact ⟨key.1, key.2.1,
    key.2.2 exampleClient [] ⟨10, 1, 3, 7⟩ "" [] [] rfl rfl rfl (by simp)⟩

/-! ## Properties of the response cache -/

/-- A call of `client.cache` on a key under which something is stored: the
stored bytes, with the store and the producer's state untouched. -/
theorem cache_hit {σ : Type} (c : client) (name b : String)
    (fn : σ → Except GoError String × σ) (st : CacheStore) (s : σ)
    (hstored : st.files (pathJoin [st.home, pathJoin [appName, "cache", name]]) = some b) :
    c.cache name fn st s = (.ok b, st, s) := by
  simp [client.cache, xdgCacheFile, osReadFile, hstored]

/-- A call of `client.cache` on a key under which nothing is stored, with a
producer that succeeds: the producer's bytes are returned and stored. -/
theorem cache_miss_ok {σ : Type} (c : client) (name b : String)
    (fn : σ → Except GoError String × σ) (st : CacheStore) (s s1 : σ)
    (habsent : st.files (pathJoin [st.home, pathJoin [appName, "cache", name]]) = none)
    (hfn : fn s = (.ok b, s1)) :
    c.cache name fn st s =
      (.ok b,
        { home := st.home
          files := fun p =>
            if p = pathJoin [st.home, pathJoin [appName, "cache", name]] then some b
            else st.files p
          logged := st.logged ++
            ["caching " ++ pathJoin [st.home, pathJoin [appName, "cache", name]]] },
        s1) := by
  simp only [client.cache, xdgCacheFile, osReadFile, habsent, GoError.isNotExist, if_true,
    hfn, logCaching, osCreate, fileWrite, fileSync]
  congr 2
  congr 1
  funext p
  by_cases hp : p = pathJoin [st.home, pathJoin [appName, "cache", name]] <;> simp [hp]

/-- A call of `client.cache` on a key under which nothing is stored, with a
producer that fails: the producer's error is returned and no file changes. -/
theorem cache_miss_error {σ : Type} (c : client) (name : String) (e : GoError)
    (fn : σ → Except GoError String × σ) (st : CacheStore) (s s1 : σ)
    (habsent : st.files (pathJoin [st.home, pathJoin [appName, "cache", name]]) = none)
    (hfn : fn s = (.error e, s1)) :
    c.cache name fn st s =
      (.error e,
        { home := st.home
          files := st.files
          logged := st.logged ++
            ["caching " ++ pathJoin [st.home, pathJoin [appName, "cache", name]]] },
        s1) := by
  simp only [client.cache, xdgCacheFile, osReadFile, habsent, GoError.isNotExist, if_true,
    hfn, logCaching]

/-- C4: with the cache directory a map from path to bytes, a call of
`client.cache(key, producer)` on a key with nothing stored and a producer that
succeeds with `b` invokes the producer exactly once (its invocation count goes
from `n` to `n + 1`), returns `b` and leaves `b` stored under the key, every
other file as it was; and every later call with the same key on that store
returns `b` with any producer, which is not invoked (count and state unchanged),
and leaves the store unchanged. -/
theorem cache_miss_then_hit {σ : Type} (c : client) (name b : String)
    (fn : σ → Except GoError String × σ) (st : CacheStore) (s s1 : σ) (n : Nat)
    (habsent : st.files (pathJoin [st.home, pathJoin [appName, "cache", name]]) = none)
    (hfn : fn s = (.ok b, s1)) :
    ∃ st1 : CacheStore,
      c.cache name (counted fn) st (s, n) = (.ok b, st1, (s1, n + 1)) ∧
      st1.files (pathJoin [st.home, pathJoin [appName, "cache", name]]) = some b ∧
      (∀ p, p ≠ pathJoin [st.home, pathJoin [appName, "cache", name]] →
        st1.files p = st.files p) ∧
      ∀ (fn2 : σ → Except GoError String × σ) (s2 : σ) (m : Nat),
        c.cache name (counted fn2) st1 (s2, m) = (.ok b, st1, (s2, m)) := by
  have hcount : counted fn (s, n) = (.ok b, (s1, n + 1)) := by
    simp [counted, hfn]
  refine ⟨_, cache_miss_ok c name b (counted fn) st (s, n) (s1, n + 1) habsent hcount,
    by simp, ?_, ?_⟩
  · intro p hp
    simp [hp]
  · intro fn2 s2 m
    exact cache_hit c name b (counted fn2) _ (s2, m) (by simp)

/-- C4, witness: a fresh key in an empty cache, a producer returning `first`,
then a producer that would return `second`. -/
theorem cache_miss_then_hit_witness :
    ∃ st1 : CacheStore,
      exampleClient.cache "request_booking_view.json"
          (counted (fun (s : Unit) => (Except.ok "first", s))) exampleWorld.store ((), 0)
        = (.ok "first", st1, ((), 1)) ∧
      st1.files "/home/u/.cache/axema-booking/cache/request_booking_view.json"
        = some "first" ∧
      exampleClient.cache "request_booking_view.json"
          (counted (fun (s : Unit) => (Except.ok "second", s))) st1 ((), 1)
        = (.ok "first", st1, ((), 1)) := by
  obtain ⟨st1, h1, h2, -, h4⟩ := cache_miss_then_hit exampleClient
    "request_booking_view.json" "first" (fun (s : Unit) => (Except.ok "first", s))
    exampleWorld.store () () 0 rfl rfl
  exact ⟨st1, h1, h2, h4 (fun (s : Unit) => (Except.ok "second", s)) () 1⟩

/-- C5: a call of `client.cache(key, producer)` on a key with nothing stored and
a producer that fails with `e` invokes the producer once, returns `e` and leaves
every file of the cache as it was, nothing stored under the key; a following
call with the same key and a producer that succeeds with `b` invokes that
producer once, returns `b` and stores it. -/
theorem cache_producer_failure {σ : Type} (c : client) (name : String) (e : GoError)
    (fn : σ → Except GoError String × σ) (st : CacheStore) (s s1 : σ) (n : Nat)
    (habsent : st.files (pathJoin [st.home, pathJoin [appName, "cache", name]]) = none)
    (hfn : fn s = (.error e, s1)) :
    ∃ st1 : CacheStore,
      c.cache name (counted fn) st (s, n) = (.error e, st1, (s1, n + 1)) ∧
      st1.files = st.files ∧
      st1.files (pathJoin [st.home, pathJoin [appName, "cache", name]]) = none ∧
      ∀ (fn2 : σ → Except GoError String × σ) (s2 s3 : σ) (b : String) (m : Nat),
        fn2 s2 = (.ok b, s3) →
        ∃ st2 : CacheStore,
          c.cache name (counted fn2) st1 (s2, m) = (.ok b, st2, (s3, m + 1)) ∧
          st2.files (pathJoin [st.home, pathJoin [appName, "cache", name]]) = some b := by
  have hcount : counted fn (s, n) = (.error e, (s1, n + 1)) := by
    simp [counted, hfn]
  refine ⟨_, cache_miss_error c name e (counted fn) st (s, n) (s1, n + 1) habsent hcount,
    rfl, habsent, ?_⟩
  intro fn2 s2 s3 b m hfn2
  have hcount2 : counted fn2 (s2, m) = (.ok b, (s3, m + 1)) := by
    simp [counted, hfn2]
  exact ⟨_, cache_miss_ok c name b (counted fn2) _ (s2, m) (s3, m + 1) habsent hcount2,
    by simp⟩

/-- C5, witness: a fresh key in an empty cache, a producer failing with
`offline`, then a producer returning `data`. -/
theorem cache_producer_failure_witness :
    ∃ st1 : CacheStore,
      exampleClient.cache "request_booking_view.json"
          (counted (fun (s : Unit) => (Except.error (GoError.foreign "offline"), s)))
          exampleWorld.store ((), 0)
        = (.error (GoError.foreign "offline"), st1, ((), 1)) ∧
      st1.files = exampleWorld.store.files ∧
      ∃ st2 : CacheStore,
        exampleClient.cache "request_booking_view.json"
            (counted (fun (s : Unit) => (Except.ok "data", s))) st1 ((), 1)
          = (.ok "data", st2, ((), 2)) ∧
        st2.files "/home/u/.cache/axema-booking/cache/request_booking_view.json"
          = some "data" := by
  obtain ⟨st1, h1, h2, -, h4⟩ := cache_producer_failure exampleClient
    "request_booking_view.json" (GoError.foreign "offline")
    (fun (s : Unit) => (Except.error (GoError.foreign "offline"), s))
    exampleWorld.store () () 0 rfl rfl
  exact ⟨st1, h1, h2, h4 (fun (s : Unit) => (Except.ok "data", s)) () () "data" 1 rfl⟩

/-! ## Properties of the login -/

theorem hasPrefixChars_iff (pat s : List Char) :
    hasPrefixChars pat s = true ↔ pat <+: s := by
  induction pat generalizing s with
  | nil => simp [hasPrefixChars]
  | cons p ps ih =>
    cases s with
    | nil => simp [hasPrefixChars]
    | cons c cs => simp [hasPrefixChars, ih, List.cons_prefix_cons]

/-- The model of `strings.Contains` decides whether the pattern occurs as a
contiguous part. -/
theorem containsChars_iff (pat s : List Char) :
    containsChars pat s = true ↔ pat <:+: s := by
  induction s with
  | nil =>
    cases pat with
    | nil => simp [containsChars, hasPrefixChars]
    | cons p ps => simp [containsChars, hasPrefixChars]
  | cons c cs ih =>
    simp only [containsChars, Bool.or_eq_true, hasPrefixChars_iff, ih, List.infix_cons_iff]

/-- The request `client.post` builds for an endpoint name and a body. -/
theorem post_spec (c : client) (rm : Remote) (name : String) (r : Option String)
    (sent : List Request) :
    (∃ e, c.post rm name r sent = (.error e, sent)) ∨
    (∃ e, c.post rm name r sent = (.error e, sent ++
      [⟨"POST", c.endpoint ++ name, r,
        if r.isSome then some "application/json; charset=UTF-8" else none⟩])) ∨
    (∃ body,
      rm.newRequest "POST" (c.endpoint ++ name) = none ∧
      rm.roundTrip sent ⟨"POST", c.endpoint ++ name, r,
        if r.isSome then some "application/json; charset=UTF-8" else none⟩
        = .response 200 (.ok body) ∧
      c.post rm name r sent = (.ok body, sent ++
        [⟨"POST", c.endpoint ++ name, r,
          if r.isSome then some "application/json; charset=UTF-8" else none⟩])) := by
  unfold client.post
  cases hnew : rm.newRequest "POST" (c.endpoint ++ name) with
  | some err => exact Or.inl ⟨err, rfl⟩
  | none =>
    right
    cases hrt : rm.roundTrip sent ⟨"POST", c.endpoint ++ name, r,
        if r.isSome then some "application/json; charset=UTF-8" else none⟩ with
    | failed err => exact Or.inl ⟨err, by simp [hrt]⟩
    | response code body =>
      cases body with
      | error err => exact Or.inl ⟨err, by simp [hrt]⟩
      | ok body =>
        by_cases hcode : code = 200
        · subst hcode
          exact Or.inr ⟨body, rfl, rfl, by simp [hrt]⟩
        · exact Or.inl ⟨.text (name ++ ": " ++ body), by simp [hrt, hcode]⟩

/-- The list of requests after `client.login`, once `client.nonce` has returned
a nonce pair: nothing more, or the one request to the login endpoint whose body
is the marshalled payload. -/
theorem login_after_nonce (c : client) (h : Host) (sent sent1 : List Request)
    (n1 n2 : String) (hnonce : c.nonce h sent = (.ok ⟨n1, n2⟩, sent1)) :
    (∀ rq ∈ ((c.login h sent).2).drop sent1.length,
      ∃ buf,
        h.json.marshalLogin
          { Nonce1 := n1, Nonce2 := n2, Pass := getMD5Hash (n2 ++ c.user ++ c.pass),
            User := getMD5Hash (n1 ++ c.user) } = .ok buf ∧
        rq = ⟨"POST", c.endpoint ++ "/fcgi_reservation/login", some buf,
          some "application/json; charset=UTF-8"⟩) ∧
    (∀ buf,
      h.json.marshalLogin
          { Nonce1 := n1, Nonce2 := n2, Pass := getMD5Hash (n2 ++ c.user ++ c.pass),
            User := getMD5Hash (n1 ++ c.user) } = .ok buf →
      h.remote.newRequest "POST" (c.endpoint ++ "/fcgi_reservation/login") = none →
      (c.login h sent).2 = sent1 ++
        [⟨"POST", c.endpoint ++ "/fcgi_reservation/login", some buf,
          some "application/json; charset=UTF-8"⟩]) := by
  unfold client.login
  rw [hnonce]
  simp only
  cases hm : h.json.marshalLogin
      { Nonce1 := n1, Nonce2 := n2, Pass := getMD5Hash (n2 ++ c.user ++ c.pass),
        User := getMD5Hash (n1 ++ c.user) } with
  | error err => simp
  | ok buf =>
    simp only
    rcases post_spec c h.remote "/fcgi_reservation/login" (some buf) sent1 with
      ⟨e, hp⟩ | ⟨e, hp⟩ | ⟨body, hnew, -, hp⟩
    · rw [hp]
      refine ⟨by simp, ?_⟩
      intro buf2 hbuf2 hnew
      simp [client.post, hnew] at hp
      revert hp
      split <;> try split
      all_goals simp
    · rw [hp]
      refine ⟨?_, ?_⟩
      · intro rq hrq
        simp at hrq
        exact ⟨buf, rfl, hrq⟩
      · intro buf2 hbuf2 _
        cases hbuf2
        simp
    · rw [hp]
      simp only
      refine ⟨?_, ?_⟩
      · intro rq hrq
        have : rq ∈ List.drop sent1.length (sent1 ++
            [⟨"POST", c.endpoint ++ "/fcgi_reservation/login", some buf,
              some "application/json; charset=UTF-8"⟩]) := by
          split at hrq <;> simpa using hrq
        simp at this
        exact ⟨buf, rfl, this⟩
      · intro buf2 hbuf2 _
        cases hbuf2
        split <;> simp

/-- C6: once the nonce endpoint has returned the pair `(n1, n2)`, every request
`client.login` makes after it is the one to the login endpoint whose body is the
marshalled payload with `nonce1 = n1`, `nonce2 = n2`,
`user = getMD5Hash(n1 ++ user)` and `pass = getMD5Hash(n2 ++ user ++ secret)`,
and that request is made whenever the payload marshals and the request can be
built; for the nonce pair `(a, b)`, user `u` and secret `p` the fields are
`getMD5Hash("au")` and `getMD5Hash("bup")`. -/
theorem login_payload :
    (∀ (c : client) (h : Host) (sent sent1 : List Request) (n1 n2 : String),
      c.nonce h sent = (.ok ⟨n1, n2⟩, sent1) →
      (∀ rq ∈ ((c.login h sent).2).drop sent1.length,
        ∃ buf,
          h.json.marshalLogin
            { Nonce1 := n1, Nonce2 := n2, Pass := getMD5Hash (n2 ++ c.user ++ c.pass),
              User := getMD5Hash (n1 ++ c.user) } = .ok buf ∧
          rq = ⟨"POST", c.endpoint ++ "/fcgi_reservation/login", some buf,
            some "application/json; charset=UTF-8"⟩) ∧
      (∀ buf,
        h.json.marshalLogin
            { Nonce1 := n1, Nonce2 := n2, Pass := getMD5Hash (n2 ++ c.user ++ c.pass),
              User := getMD5Hash (n1 ++ c.user) } = .ok buf →
        h.remote.newRequest "POST" (c.endpoint ++ "/fcgi_reservation/login") = none →
        (c.login h sent).2 = sent1 ++
          [⟨"POST", c.endpoint ++ "/fcgi_reservation/login", some buf,
            some "application/json; charset=UTF-8"⟩])) ∧
    (∀ (c : client) (h : Host) (sent sent1 : List Request),
      c.user = "u" → c.pass = "p" → c.nonce h sent = (.ok ⟨"a", "b"⟩, sent1) →
      ∀ rq ∈ ((c.login h sent).2).drop sent1.length,
        ∃ buf,
          h.json.marshalLogin
            { Nonce1 := "a", Nonce2 := "b", Pass := getMD5Hash "bup",
              User := getMD5Hash "au" } = .ok buf ∧
          rq = ⟨"POST", c.endpoint ++ "/fcgi_reservation/login", some buf,
            some "application/json; charset=UTF-8"⟩) := by
  refine ⟨fun c h sent sent1 n1 n2 hnonce => login_after_nonce c h sent sent1 n1 n2 hnonce, ?_⟩
  intro c h sent sent1 hu hp hnonce rq hrq
  have key := (login_after_nonce c h sent sent1 "a" "b" hnonce).1 rq hrq
  rw [hu, hp] at key
  exact key

/-- C6, witness: the example service answers the nonce request with `a b`; the
client with user `u` and secret `p` then posts the payload whose user field is
the MD5 of `au` and whose pass field is the MD5 of `bup`. -/
theorem login_payload_witness :
    (exampleClient.login (exampleHost "ok") []).2 =
      [⟨"POST", "https://axema.example/fcgi_reservation/get_nonce", none, none⟩,
       ⟨"POST", "https://axema.example/fcgi_reservation/login",
         some ("a b " ++ getMD5Hash "au" ++ " " ++ getMD5Hash "bup"),
         some "application/json; charset=UTF-8"⟩] ∧
    getMD5Hash "au" = "8bcc25c96aa5a71f7a76309077753e67" ∧
    getMD5Hash "bup" = "07672cabc9d5903ebba85d9851ffbb12" := by
  refine ⟨?_, by decide, by decide⟩
  exact (login_payload.1 exampleClient (exampleHost "ok") []
    [⟨"POST", "https://axema.example/fcgi_reservation/get_nonce", none, none⟩] "a" "b"
    rfl).2 ("a b " ++ getMD5Hash "au" ++ " " ++ getMD5Hash "bup") rfl rfl

/-- The digest of the empty string, as a check of the MD5 model against the
reference value of RFC 1321. -/
theorem getMD5Hash_empty : getMD5Hash "" = "d41d8cd98f00b204e9800998ecf8427e" := by
  decide

/-- What `client.login` returns when it has made its two requests and both were
answered with status 200 and a readable body: an error carrying the body of the
login response when that body contains `wrong_login`, no error otherwise. -/
theorem login_of_two_replies (c : client) (h : Host) (sent : List Request)
    (rq1 rq2 : Request) (nb lb : String)
    (htrace : (c.login h sent).2 = sent ++ [rq1, rq2])
    (h1 : h.remote.roundTrip sent rq1 = .response 200 (.ok nb))
    (h2 : h.remote.roundTrip (sent ++ [rq1]) rq2 = .response 200 (.ok lb)) :
    (c.login h sent).1 =
      if stringsContains lb "wrong_login" then .error (.text ("login: " ++ lb)) else .ok () := by
  have hlen2 : ∀ (l : List Request) (a b : Request), l ≠ l ++ [a, b] := by
    intro l a b hcontra
    have := congrArg List.length hcontra
    simp at this
  have hlen1 : ∀ (l : List Request) (a b x : Request), l ++ [x] ≠ l ++ [a, b] := by
    intro l a b x hcontra
    have := congrArg List.length hcontra
    simp at this
  unfold client.login client.nonce at htrace ⊢
  rcases post_spec c h.remote "/fcgi_reservation/get_nonce" none sent with
    ⟨e, hp⟩ | ⟨e, hp⟩ | ⟨body, -, hrt, hp⟩
  · rw [hp] at htrace
    exact absurd htrace (hlen2 _ _ _)
  · rw [hp] at htrace
    exact absurd htrace (hlen1 _ _ _ _)
  · rw [hp] at htrace ⊢
    simp only at htrace ⊢
    cases hdec : h.json.unmarshalNonce body with
    | error err =>
      rw [hdec] at htrace
      exact absurd htrace (hlen1 _ _ _ _)
    | ok nonce =>
      rw [hdec] at htrace
      simp only at htrace ⊢
      cases hm : h.json.marshalLogin
          { Nonce1 := nonce.Nonce1, Nonce2 := nonce.Nonce2,
            Pass := getMD5Hash (nonce.Nonce2 ++ c.user ++ c.pass),
            User := getMD5Hash (nonce.Nonce1 ++ c.user) } with
      | error err =>
        rw [hm] at htrace
        exact absurd htrace (hlen1 _ _ _ _)
      | ok buf =>
        rw [hm] at htrace
        simp only at htrace ⊢
        rcases post_spec c h.remote "/fcgi_reservation/login" (some buf)
            (sent ++ [⟨"POST", c.endpoint ++ "/fcgi_reservation/get_nonce", none,
              if (none : Option String).isSome then some "application/json; charset=UTF-8"
              else none⟩]) with
          ⟨e, hp2⟩ | ⟨e, hp2⟩ | ⟨body2, -, hrt2, hp2⟩
        · rw [hp2] at htrace
          exact absurd htrace (hlen1 _ _ _ _)
        · rw [hp2] at htrace
          simp only [List.append_assoc, List.singleton_append, List.append_cancel_left_eq,
            List.cons.injEq, and_true] at htrace
          obtain ⟨hr1, hr2⟩ := htrace
          subst hr1 hr2
          rw [hp2]
          simp only [List.append_assoc, List.singleton_append] at hp2
          unfold client.post at hp2
          revert hp2
          split
          · simp
          · simp only [Option.isSome_none, Option.isSome_some, Bool.false_eq_true, if_false,
              if_true] at h2
            simp [h2]
        · have htrace2 : sent ++ [⟨"POST", c.endpoint ++ "/fcgi_reservation/get_nonce", none,
              if (none : Option String).isSome then some "application/json; charset=UTF-8"
              else none⟩] ++ [⟨"POST", c.endpoint ++ "/fcgi_reservation/login", some buf,
              if (some buf).isSome then some "application/json; charset=UTF-8" else none⟩]
              = sent ++ [rq1, rq2] := by
            rw [hp2] at htrace
            simp only at htrace
            by_cases hc : stringsContains body2 "wrong_login" = true
            · simpa [hc] using htrace
            · simpa [hc] using htrace
          simp only [List.append_assoc, List.singleton_append, List.append_cancel_left_eq,
            List.cons.injEq, and_true] at htrace2
          obtain ⟨hr1, hr2⟩ := htrace2
          subst hr1 hr2
          rw [h2] at hrt2
          simp only [Reply.response.injEq, Except.ok.injEq, true_and] at hrt2
          subst hrt2
          rw [hp2]
          simp only
          by_cases hc : stringsContains lb "wrong_login" = true
          · simp [hc]
          · simp [hc]

/-- C7: when `client.login` has made both of its requests and both were answered
with status 200 and a readable body, it returns an error if and only if the body
of the login response contains `wrong_login`, and that error is `login: `
followed by the body; and when `client.login` returns an error inside `run`,
`run` returns that error and the requests made are those of `client.login`, the
cache and the standard output being as before. -/
theorem login_failure_marker :
    (∀ (c : client) (h : Host) (sent : List Request) (rq1 rq2 : Request) (nb lb : String),
      (c.login h sent).2 = sent ++ [rq1, rq2] →
      h.remote.roundTrip sent rq1 = .response 200 (.ok nb) →
      h.remote.roundTrip (sent ++ [rq1]) rq2 = .response 200 (.ok lb) →
      ((∃ e, (c.login h sent).1 = .error e) ↔ "wrong_login".data <:+: lb.data) ∧
      ("wrong_login".data <:+: lb.data →
        (c.login h sent).1 = .error (.text ("login: " ++ lb)))) ∧
    (∀ (h : Host) (w : World) (e : GoError) (sent1 : List Request),
      w.environ "AXEMA_ENDPOINT" ≠ "" → w.environ "AXEMA_USER" ≠ "" →
      w.environ "AXEMA_PASS" ≠ "" →
      client.login ⟨w.environ "AXEMA_ENDPOINT", w.environ "AXEMA_USER",
          w.environ "AXEMA_PASS", fun _ => none⟩ h w.sent = (.error e, sent1) →
      run h w = (.error (.error e), { w with sent := sent1 })) := by
  constructor
  · intro c h sent rq1 rq2 nb lb htrace h1 h2
    have hres := login_of_two_replies c h sent rq1 rq2 nb lb htrace h1 h2
    have hiff : stringsContains lb "wrong_login" = true ↔ "wrong_login".data <:+: lb.data :=
      containsChars_iff _ _
    by_cases hc : stringsContains lb "wrong_login" = true
    · rw [if_pos hc] at hres
      exact ⟨⟨fun _ => hiff.1 hc, fun _ => ⟨_, hres⟩⟩, fun _ => hres⟩
    · rw [if_neg hc] at hres
      refine ⟨⟨?_, fun hin => absurd (hiff.2 hin) hc⟩, fun hin => absurd (hiff.2 hin) hc⟩
      rintro ⟨e, he⟩
      rw [hres] at he
      cases he
  · intro h w e sent1 h1 h2 h3 hlogin
    simp only [run, h1, h2, h3, if_false, newClient, hlogin]

/-- C7, witness: the example service answers the login request with a body
that contains `wrong_login`; `run` returns the login error and only the nonce
request and the login request have been made. -/
theorem login_failure_marker_witness :
    (run (exampleHost "error: wrong_login") exampleWorld).1
      = .error (.error (.text "login: error: wrong_login")) ∧
    (run (exampleHost "error: wrong_login") exampleWorld).2.sent.length = 2 ∧
    (exampleClient.login (exampleHost "error: wrong_login") []).1
      = .error (.text "login: error: wrong_login") := by
  have hrun := login_failure_marker.2 (exampleHost "error: wrong_login") exampleWorld
    (.text "login: error: wrong_login")
    [⟨"POST", "https://axema.example/fcgi_reservation/get_nonce", none, none⟩,
     ⟨"POST", "https://axema.example/fcgi_reservation/login",
       some ("a b " ++ getMD5Hash "au" ++ " " ++ getMD5Hash "bup"),
       some "application/json; charset=UTF-8"⟩]
    (by decide) (by decide) (by decide) rfl
  have hlogin := (login_failure_marker.1 exampleClient (exampleHost "error: wrong_login") []
    ⟨"POST", "https://axema.example/fcgi_reservation/get_nonce", none, none⟩
    ⟨"POST", "https://axema.example/fcgi_reservation/login",
      some ("a b " ++ getMD5Hash "au" ++ " " ++ getMD5Hash "bup"),
      some "application/json; charset=UTF-8"⟩
    "a b" "error: wrong_login" rfl rfl rfl).2 (by decide)
  rw [hrun]
  exact ⟨rfl, rfl, hlogin⟩

/-! ## Properties of the resolution loop of `run` -/

theorem bookingView_scan_cases (units : List laundryUnit) (id : Int) :
    bookingViewResponse.GetSchedulePeriodByID.scan units id
        = (-1, schedulePeriod.zero, laundryUnit.zero) ∨
    ∃ (day : Int) (period : schedulePeriod) (lu : laundryUnit),
      bookingViewResponse.GetSchedulePeriodByID.scan units id = (day, period, lu) ∧
      0 ≤ day ∧ lu ∈ units ∧ lu.GetSchedulePeriodByID id = (day, period) := by
  induction units with
  | nil => left; rfl
  | cons u rest ih =>
    by_cases hu : (u.GetSchedulePeriodByID id).1 ≥ 0
    · right
      refine ⟨(u.GetSchedulePeriodByID id).1, (u.GetSchedulePeriodByID id).2, u, ?_, hu,
        List.mem_cons_self _ _, rfl⟩
      simp [bookingViewResponse.GetSchedulePeriodByID.scan, hu]
    · have hstep : bookingViewResponse.GetSchedulePeriodByID.scan (u :: rest) id
          = bookingViewResponse.GetSchedulePeriodByID.scan rest id := by
        simp only [bookingViewResponse.GetSchedulePeriodByID.scan]
        rw [if_neg hu]
      rw [hstep]
      rcases ih with h | ⟨day, period, lu, hres, hday, hmem, hlu⟩
      · left; exact h
      · right
        exact ⟨day, period, lu, hres, hday, List.mem_cons_of_mem _ hmem, hlu⟩

theorem bookingView_scan_notFound (units : List laundryUnit) (id : Int)
    (h : ∀ lu ∈ units, ∀ item ∈ lu.SchedulePeriodList, ∀ slot ∈ item, slot.ID ≠ id) :
    bookingViewResponse.GetSchedulePeriodByID.scan units id
      = (-1, schedulePeriod.zero, laundryUnit.zero) := by
  induction units with
  | nil => rfl
  | cons u rest ih =>
    have hu : u.GetSchedulePeriodByID id = (-1, schedulePeriod.zero) :=
      (outer_eq_notFound_iff u.SchedulePeriodList 0 id).2 (h u (List.mem_cons_self _ _))
    simp only [bookingViewResponse.GetSchedulePeriodByID.scan, hu]
    exact ih (fun lu hlu => h lu (List.mem_cons_of_mem _ hlu))

/-- The bookings loop stops at the first booking whose body fails. -/
theorem bookingsLoop_append_error (h : Host) (c : client) (pre rest : List booking)
    (r : booking) (cal0 cal : List VEvent) (f : Failure)
    (hpre : run.bookingsLoop h c pre cal0 = .ok cal)
    (hr : run.resolveBooking h c cal r = .error f) :
    run.bookingsLoop h c (pre ++ r :: rest) cal0 = .error f := by
  induction pre generalizing cal0 with
  | nil =>
    simp only [run.bookingsLoop] at hpre
    cases hpre
    simp [run.bookingsLoop, hr]
  | cons b bs ih =>
    simp only [List.cons_append, run.bookingsLoop] at hpre ⊢
    cases hb : run.resolveBooking h c cal0 b with
    | error f2 => rw [hb] at hpre; cases hpre
    | ok cal1 =>
      rw [hb] at hpre
      simp only at hpre ⊢
      exact ih cal1 hpre

/-- The body of the bookings loop never ends with a panic. -/
theorem resolveBooking_no_panic (h : Host) (c : client) (cal : List VEvent) (r : booking)
    (p : Panic) : run.resolveBooking h c cal r ≠ .error (.panic p) := by
  unfold run.resolveBooking
  cases hobj : c.objects r.ObjectID with
  | none => simp
  | some o =>
    simp only
    rcases bookingView_scan_cases o.LaundryUnits r.SchedulePeriodID with
      hnone | ⟨day, period, lu, hres, hday, -, -⟩
    · have hscan : o.GetSchedulePeriodByID r.SchedulePeriodID
          = (-1, schedulePeriod.zero, laundryUnit.zero) := hnone
      rw [hscan]
      simp [laundryUnit.GetDate, laundryUnit.zero, laundryUnit.GetDate.scan]
    · have hscan : o.GetSchedulePeriodByID r.SchedulePeriodID = (day, period, lu) := hres
      rw [hscan]
      obtain ⟨s, hs, -⟩ := scan_of_nonneg lu.WeekList r.WeekNumber day hday
      have hget : lu.GetDate r.WeekNumber day = .ok s := hs
      simp only [hget]
      split
      · simp
      · split
        · simp
        · split <;> simp

/-- C8: for a booking `r` whose object id is in the map, when no laundry unit of
the object's schedule has an entry with `r.SchedulePeriodID`, or the period is
found at day index `day >= 0` of unit `lu` and `lu.GetDate(r.WeekNumber, day)`
is the empty string, the loop body of `run` ends with the error
`failed to get date for reservation <r.ID>`, the loop ends with that error at
`r` and returns no calendar; the loop body never panics, and the triple handed
to `GetDate` has a day index of at least 0 or is `(-1, schedulePeriod{},
laundryUnit{})`. -/
theorem resolve_failure_names_reservation :
    (∀ (h : Host) (c : client) (cal : List VEvent) (r : booking) (o : bookingViewResponse),
      c.objects r.ObjectID = some o →
      ((∀ lu ∈ o.LaundryUnits, ∀ item ∈ lu.SchedulePeriodList, ∀ slot ∈ item,
          slot.ID ≠ r.SchedulePeriodID) ∨
        (∃ (day : Int) (period : schedulePeriod) (lu : laundryUnit),
          o.GetSchedulePeriodByID r.SchedulePeriodID = (day, period, lu) ∧ 0 ≤ day ∧
          lu.GetDate r.WeekNumber day = .ok "")) →
      run.resolveBooking h c cal r
        = .error (.error (.text ("failed to get date for reservation " ++ fmtD r.ID))) ∧
      ∀ (pre rest : List booking) (cal0 : List VEvent),
        run.bookingsLoop h c pre cal0 = .ok cal →
        run.bookingsLoop h c (pre ++ r :: rest) cal0
          = .error (.error (.text ("failed to get date for reservation " ++ fmtD r.ID)))) ∧
    (∀ (h : Host) (c : client) (cal : List VEvent) (r : booking) (p : Panic),
      run.resolveBooking h c cal r ≠ .error (.panic p)) ∧
    (∀ (o : bookingViewResponse) (id : Int),
      0 ≤ (o.GetSchedulePeriodByID id).1 ∨
        o.GetSchedulePeriodByID id = (-1, schedulePeriod.zero, laundryUnit.zero)) := by
  refine ⟨?_, resolveBooking_no_panic, ?_⟩
  · intro h c cal r o hobj hfail
    have hstep : run.resolveBooking h c cal r
        = .error (.error (.text ("failed to get date for reservation " ++ fmtD r.ID))) := by
      unfold run.resolveBooking
      rw [hobj]
      simp only
      rcases hfail with hnone | ⟨day, period, lu, hres, -, hdate⟩
      · have hscan : o.GetSchedulePeriodByID r.SchedulePeriodID
            = (-1, schedulePeriod.zero, laundryUnit.zero) :=
          bookingView_scan_notFound o.LaundryUnits r.SchedulePeriodID hnone
        rw [hscan]
        simp [laundryUnit.GetDate, laundryUnit.zero, laundryUnit.GetDate.scan]
      · rw [hres]
        simp [hdate]
    exact ⟨hstep, fun pre rest cal0 hpre =>
      bookingsLoop_append_error h c pre rest r cal0 cal _ hpre hstep⟩
  · intro o id
    rcases bookingView_scan_cases o.LaundryUnits id with hnone | ⟨day, period, lu, hres, hday, -, -⟩
    · right; exact hnone
    · left
      have hscan : o.GetSchedulePeriodByID id = (day, period, lu) := hres
      rw [hscan]
      exact hday

/-- C8, witness: object 1 holds the example unit; booking 11 asks for period 8,
which no unit has, and booking 12 asks for period 7 in week 4, which the unit
does not list. -/
theorem resolve_failure_names_reservation_witness :
    run.resolveBooking (exampleHost "ok") exampleClient [] ⟨11, 1, 3, 8⟩
      = .error (.error (.text "failed to get date for reservation 11")) ∧
    run.resolveBooking (exampleHost "ok") exampleClient [] ⟨12, 1, 4, 7⟩
      = .error (.error (.text "failed to get date for reservation 12")) ∧
    run.bookingsLoop (exampleHost "ok") exampleClient [⟨10, 1, 3, 7⟩, ⟨12, 1, 4, 7⟩] []
      = .error (.error (.text "failed to get date for reservation 12")) := by
  have h1 := (resolve_failure_names_reservation.1 (exampleHost "ok") exampleClient []
    ⟨11, 1, 3, 8⟩ ⟨"", [exampleUnit]⟩ rfl (Or.inl (by decide))).1
  have h2 := (resolve_failure_names_reservation.1 (exampleHost "ok") exampleClient []
    ⟨12, 1, 4, 7⟩ ⟨"", [exampleUnit]⟩ rfl
    (Or.inr ⟨0, ⟨7, 480, 540⟩, exampleUnit, rfl, by decide, rfl⟩)).1
  have h3 := (resolve_failure_names_reservation.1 (exampleHost "ok") exampleClient
    [{ id := "https://axema.example/10/3/7"
       startAt := ⟨2024, 1, 15, 8, 0, 0, 0, ⟨"Europe/Stockholm"⟩⟩
       endAt := ⟨2024, 1, 15, 9, 0, 0, 0, ⟨"Europe/Stockholm"⟩⟩
       summary := "Laundry" }]
    ⟨12, 1, 4, 7⟩ ⟨"", [exampleUnit]⟩ rfl
    (Or.inr ⟨0, ⟨7, 480, 540⟩, exampleUnit, rfl, by decide, rfl⟩)).2
    [⟨10, 1, 3, 7⟩] [] [] rfl
  exact ⟨h1, h2, h3⟩

/-- The keys of the object map after the objects loop: the keys it had before
and the ids of the objects of the list. -/
theorem objectsLoop_keys (h : Host) (objs : List object) (c c3 : client)
    (st st3 : CacheStore) (sent sent3 : List Request)
    (hloop : run.objectsLoop h c objs st sent = (.ok c3, st3, sent3)) (k : Int) :
    c3.objects k ≠ none ↔ (c.objects k ≠ none ∨ k ∈ objs.map (fun o => o.ID)) := by
  induction objs generalizing c st sent with
  | nil =>
    simp only [run.objectsLoop, Prod.mk.injEq, Except.ok.injEq] at hloop
    obtain ⟨hc, -, -⟩ := hloop
    subst hc
    simp
  | cons o rest ih =>
    simp only [run.objectsLoop] at hloop
    cases hget : c.GetCachedBookingViewByObjectID h o.ID st sent with
    | mk res tail =>
      obtain ⟨st1, sent1⟩ := tail
      rw [hget] at hloop
      cases res with
      | error err => simp at hloop
      | ok resp =>
        simp only at hloop
        rw [ih _ _ _ hloop]
        by_cases hk : k = o.ID
        · simp [hk]
        · simp only [hk, if_false, List.map_cons, List.mem_cons, false_or]

/-- What `run` returns once the login, the object list, the schedules and the
reservations have been fetched: the outcome of the bookings loop. -/
theorem run_of_fetched (h : Host) (w : World) (objects : List object) (c3 : client)
    (st2 st3 : CacheStore) (sent1 sent2 sent3 sent4 : List Request)
    (reservations : ownedReservationsResponse)
    (he : w.environ "AXEMA_ENDPOINT" ≠ "") (hu : w.environ "AXEMA_USER" ≠ "")
    (hp : w.environ "AXEMA_PASS" ≠ "")
    (hlogin : client.login ⟨w.environ "AXEMA_ENDPOINT", w.environ "AXEMA_USER",
        w.environ "AXEMA_PASS", fun _ => none⟩ h w.sent = (.ok (), sent1))
    (hview : client.GetCachedBookingView ⟨w.environ "AXEMA_ENDPOINT", w.environ "AXEMA_USER",
        w.environ "AXEMA_PASS", fun _ => none⟩ h w.store sent1 = (.ok objects, st2, sent2))
    (hloop : run.objectsLoop h ⟨w.environ "AXEMA_ENDPOINT", w.environ "AXEMA_USER",
        w.environ "AXEMA_PASS", fun _ => none⟩ objects st2 sent2 = (.ok c3, st3, sent3))
    (howned : c3.GetOwnedReservations h sent3 = (.ok reservations, sent4)) :
    run h w =
      match run.bookingsLoop h c3 reservations.Bookings [] with
      | .error f => (.error f, { w with sent := sent4, store := st3 })
      | .ok cal =>
        (.ok (), { w with sent := sent4, store := st3,
                          stdout := w.stdout ++ [h.serialize cal] }) := by
  simp only [run, he, hu, hp, if_false, newClient, hlogin, hview, hloop, howned]

/-- C9, as the code has it: for a booking `r` whose `ObjectID` is no key of the
object map, the loop body of `run` ends with the error `bad object <r.ObjectID>`,
which names the object id, and the loop ends with that error at `r`; so does
`run` when the map was built from an object list without `r.ObjectID`, the
standard output staying as it was. -/
theorem bad_object_names_object :
    (∀ (h : Host) (c : client) (cal : List VEvent) (r : booking),
      c.objects r.ObjectID = none →
      run.resolveBooking h c cal r = .error (.error (.text ("bad object " ++ fmtD r.ObjectID))) ∧
      ∀ (pre rest : List booking) (cal0 : List VEvent),
        run.bookingsLoop h c pre cal0 = .ok cal →
        run.bookingsLoop h c (pre ++ r :: rest) cal0
          = .error (.error (.text ("bad object " ++ fmtD r.ObjectID)))) ∧
    (∀ (h : Host) (w : World) (objects : List object) (c3 : client)
      (st2 st3 : CacheStore) (sent1 sent2 sent3 sent4 : List Request)
      (reservations : ownedReservationsResponse) (pre rest : List booking) (r : booking)
      (cal : List VEvent),
      w.environ "AXEMA_ENDPOINT" ≠ "" → w.environ "AXEMA_USER" ≠ "" →
      w.environ "AXEMA_PASS" ≠ "" →
      client.login ⟨w.environ "AXEMA_ENDPOINT", w.environ "AXEMA_USER",
        w.environ "AXEMA_PASS", fun _ => none⟩ h w.sent = (.ok (), sent1) →
      client.GetCachedBookingView ⟨w.environ "AXEMA_ENDPOINT", w.environ "AXEMA_USER",
        w.environ "AXEMA_PASS", fun _ => none⟩ h w.store sent1 = (.ok objects, st2, sent2) →
      run.objectsLoop h ⟨w.environ "AXEMA_ENDPOINT", w.environ "AXEMA_USER",
        w.environ "AXEMA_PASS", fun _ => none⟩ objects st2 sent2 = (.ok c3, st3, sent3) →
      c3.GetOwnedReservations h sent3 = (.ok reservations, sent4) →
      reservations.Bookings = pre ++ r :: rest →
      run.bookingsLoop h c3 pre [] = .ok cal →
      r.ObjectID ∉ objects.map (fun o => o.ID) →
      run h w = (.error (.error (.text ("bad object " ++ fmtD r.ObjectID))),
        { w with sent := sent4, store := st3 })) := by
  have hstep : ∀ (h : Host) (c : client) (cal : List VEvent) (r : booking),
      c.objects r.ObjectID = none →
      run.resolveBooking h c cal r
        = .error (.error (.text ("bad object " ++ fmtD r.ObjectID))) := by
    intro h c cal r hobj
    unfold run.resolveBooking
    rw [hobj]
  constructor
  · intro h c cal r hobj
    exact ⟨hstep h c cal r hobj, fun pre rest cal0 hpre =>
      bookingsLoop_append_error h c pre rest r cal0 cal _ hpre (hstep h c cal r hobj)⟩
  · intro h w objects c3 st2 st3 sent1 sent2 sent3 sent4 reservations pre rest r cal
      he hu hp hlogin hview hloop howned hbook hpre hkey
    have hnone : c3.objects r.ObjectID = none := by
      by_contra hsome
      rcases (objectsLoop_keys h objects _ c3 st2 st3 sent2 sent3 hloop r.ObjectID).1 hsome with
        hold | hin
      · exact hold rfl
      · exact hkey hin
    rw [run_of_fetched h w objects c3 st2 st3 sent1 sent2 sent3 sent4 reservations
      he hu hp hlogin hview hloop howned, hbook,
      bookingsLoop_append_error h c3 pre rest r [] cal _ hpre (hstep h c3 cal r hnone)]

/-- C9 fails as stated: the object list holds object 1 only and reservation 10
refers to object 2; `run` ends with `bad object 2`, which holds the object id
and not the reservation id 10. -/
theorem bad_object_counterexample :
    (run (exampleHostWith "ok" [⟨10, 2, 3, 7⟩]) exampleWorld).1
      = .error (.error (.text "bad object 2")) ∧
    ¬ ((fmtD 10).data <:+: "bad object 2".data) := by
  refine ⟨rfl, by decide⟩

/-- C9, witness: the same run, through the general statement. -/
theorem bad_object_names_object_witness :
    run.resolveBooking (exampleHost "ok") exampleClient [] ⟨10, 2, 3, 7⟩
      = .error (.error (.text "bad object 2")) ∧
    run.bookingsLoop (exampleHost "ok") exampleClient [⟨10, 1, 3, 7⟩, ⟨13, 5, 3, 7⟩] []
      = .error (.error (.text "bad object 5")) := by
  have h1 := (bad_object_names_object.1 (exampleHost "ok") exampleClient []
    ⟨10, 2, 3, 7⟩ rfl).1
  have h2 := (bad_object_names_object.1 (exampleHost "ok") exampleClient
    [{ id := "https://axema.example/10/3/7"
       startAt := ⟨2024, 1, 15, 8, 0, 0, 0, ⟨"Europe/Stockholm"⟩⟩
       endAt := ⟨2024, 1, 15, 9, 0, 0, 0, ⟨"Europe/Stockholm"⟩⟩
       summary := "Laundry" }]
    ⟨13, 5, 3, 7⟩ rfl).2 [⟨10, 1, 3, 7⟩] [] [] rfl
  exact ⟨h1, h2⟩

end Axema
